import Mathlib

/-
Verification of the scim-sanity repository: a shallow embedding of its
payload validator, server-response validator, HTTP client retry logic,
payload factory and probe orchestrator, together with proofs of the
behavioural claims about them.

Python JSON values are embedded as the inductive `JSON`; Python dicts as
association lists (`Dict`) looked up first-match, which matches a real
Python dict (whose keys are unique).  Machine-level details that the
claims do not touch (hash ordering, unhashable-key TypeErrors) are noted
next to the definitions they would affect.
-/

namespace ScimSanity

/-- A parsed JSON value as manipulated by the Python code.  Python's
`json.loads` maps null to None, true/false to bool, numbers to int (the
payloads and checks in this repository use only integers), strings to str,
arrays to list and objects to dict. -/
inductive JSON where
  | null : JSON
  | bool (b : Bool) : JSON
  | int (n : Int) : JSON
  | str (s : String) : JSON
  | arr (elems : List JSON) : JSON
  | obj (fields : List (String × JSON)) : JSON
deriving Repr

/-- A Python dict with string keys, as an insertion-ordered association list. -/
abbrev Dict := List (String × JSON)

/-- Python `d[k]` / successful lookup: first entry with the given key. -/
def dictGet (d : Dict) (k : String) : Option JSON :=
  match d with
  | [] => none
  | (k', v) :: rest => if k' = k then some v else dictGet rest k

/-- Python `k in d` membership test on a dict. -/
def dictHasKey (d : Dict) (k : String) : Bool :=
  match d with
  | [] => false
  | (k', _) :: rest => if k' = k then true else dictHasKey rest k

/-- Python `d.get(k, default)`. -/
def dictGetD (d : Dict) (k : String) (default : JSON) : JSON :=
  match dictGet d k with
  | some v => v
  | none => default

/-- Python `d.get(k)`: absent keys and keys mapped to JSON null both yield
None in Python, since `json.loads` parses null to None. -/
def dictGetPy (d : Dict) (k : String) : Option JSON :=
  match dictGet d k with
  | some JSON.null => none
  | some v => some v
  | none => none

/-- Python truthiness of an optional JSON value (`if x:`). -/
def pyTruthy : Option JSON → Bool
  | none => false
  | some JSON.null => false
  | some (JSON.bool b) => b
  | some (JSON.int n) => n ≠ 0
  | some (JSON.str s) => s ≠ ""
  | some (JSON.arr l) => !l.isEmpty
  | some (JSON.obj o) => !o.isEmpty

/-- Python `isinstance(x, int)`.  A Python bool is a subclass of int, so
`isinstance(True, int)` is True; this is the behaviour validate_list_response
inherits for its integer checks. -/
def pyIsInt : JSON → Bool
  | JSON.bool _ => true
  | JSON.int _ => true
  | _ => false

/-- The Python type name of a JSON value (`type(x).__name__`), used in
error-message interpolation. -/
def pyTypeName : JSON → String
  | JSON.null => "NoneType"
  | JSON.bool _ => "bool"
  | JSON.int _ => "int"
  | JSON.str _ => "str"
  | JSON.arr _ => "list"
  | JSON.obj _ => "dict"

/-- Python `urn in schemas` for a list of JSON values against a string:
membership holds exactly when some element is that string (Python `==`
between a str and a non-str is False). -/
def jsonListHasStr (l : List JSON) (s : String) : Bool :=
  l.any fun j =>
    match j with
    | JSON.str t => t = s
    | _ => false

/-- Python `x == "lit"` between a JSON value and a string literal. -/
def jsonEqStr (j : JSON) (s : String) : Bool :=
  match j with
  | JSON.str t => t = s
  | _ => false

/-- Structural equality of JSON values, Python `==` (restricted to the JSON
fragment: Python also equates 1 and True, which no claim exercises; the
values compared by the code under proof are strings). -/
def jsonBeq : JSON → JSON → Bool
  | JSON.null, JSON.null => true
  | JSON.bool a, JSON.bool b => a = b
  | JSON.int a, JSON.int b => a = b
  | JSON.str a, JSON.str b => a = b
  | JSON.arr a, JSON.arr b => jsonListBeq a b
  | JSON.obj a, JSON.obj b => jsonObjBeq a b
  | _, _ => false
where
  jsonListBeq : List JSON → List JSON → Bool
    | [], [] => true
    | a :: as', b :: bs => jsonBeq a b && jsonListBeq as' bs
    | _, _ => false
  jsonObjBeq : List (String × JSON) → List (String × JSON) → Bool
    | [], [] => true
    | (ka, va) :: as', (kb, vb) :: bs => ka = kb && jsonBeq va vb && jsonObjBeq as' bs
    | _, _ => false

/-- Membership of a JSON value in a Python set, modelled as a list. -/
def setHas (s : List JSON) (x : JSON) : Bool :=
  s.any fun y => jsonBeq x y

def charsPrefixOf : List Char → List Char → Bool
  | [], _ => true
  | _ :: _, [] => false
  | c :: cs, d :: ds => c = d && charsPrefixOf cs ds

def charsInfixOf (needle : List Char) (hay : List Char) : Bool :=
  match hay with
  | [] => needle.isEmpty
  | _ :: rest => charsPrefixOf needle hay || charsInfixOf needle rest

/-- Python `s.lower()` on the ASCII header and key names the code compares
(case mapping is per character). -/
def strLower (s : String) : String :=
  String.mk (s.data.map Char.toLower)

-- ---------------------------------------------------------------------------
-- schemas.py — the schema registry
-- ---------------------------------------------------------------------------

/-- An attribute definition from schemas.py.  The fields are the keys the
validators read (`name`, `type`, `required`, `multiValued`, `mutability`,
`returned`, `subAttributes`); the registry's `caseExact` and `uniqueness`
keys are never read by any code under proof and are omitted.  Absent keys
take the Python `.get` defaults: required/multiValued false, mutability
"readWrite", returned "default", subAttributes []. -/
inductive AttrDef where
  | mk (name : String) (type : String) (required : Bool) (multiValued : Bool)
       (mutability : String) (returned : String) (subAttributes : List AttrDef) : AttrDef

def AttrDef.name : AttrDef → String
  | .mk n _ _ _ _ _ _ => n

def AttrDef.type : AttrDef → String
  | .mk _ t _ _ _ _ _ => t

def AttrDef.required : AttrDef → Bool
  | .mk _ _ r _ _ _ _ => r

def AttrDef.multiValued : AttrDef → Bool
  | .mk _ _ _ m _ _ _ => m

def AttrDef.mutability : AttrDef → String
  | .mk _ _ _ _ m _ _ => m

def AttrDef.returned : AttrDef → String
  | .mk _ _ _ _ _ r _ => r

def AttrDef.subAttributes : AttrDef → List AttrDef
  | .mk _ _ _ _ _ _ s => s

/-- Shorthand for a simple (non-complex) attribute definition. -/
def attr (name : String) (required : Bool := false) (mutability : String := "readWrite")
    (returned : String := "default") (type : String := "string") : AttrDef :=
  AttrDef.mk name type required false mutability returned []

/-- Shorthand for a complex attribute definition. -/
def cattr (name : String) (multiValued : Bool) (subAttributes : List AttrDef)
    (mutability : String := "readWrite") (required : Bool := false) : AttrDef :=
  AttrDef.mk name "complex" required multiValued mutability "default" subAttributes

/-- A schema record; the validators read only its `attributes` list (the
registry's `schemas`, `id`, `name` and `description` keys are never read). -/
structure SCIMSchema where
  attributes : List AttrDef

def nameSubAttrs : List AttrDef :=
  [attr "formatted", attr "familyName", attr "givenName", attr "middleName",
   attr "honorificPrefix", attr "honorificSuffix"]

def valueDisplayTypePrimarySubAttrs : List AttrDef :=
  [attr "value", attr "display", attr "type", attr "primary" false "readWrite" "default" "boolean"]

def addressSubAttrs : List AttrDef :=
  [attr "formatted", attr "streetAddress", attr "locality", attr "region",
   attr "postalCode", attr "country", attr "type",
   attr "primary" false "readWrite" "default" "boolean"]

def metaSubAttrs : List AttrDef :=
  [attr "resourceType" false "readOnly", attr "created" false "readOnly" "default" "dateTime",
   attr "lastModified" false "readOnly" "default" "dateTime",
   attr "location" false "readOnly" "default" "reference",
   attr "version" false "readOnly"]

/-- CORE_USER_SCHEMA from schemas.py. -/
def CORE_USER_SCHEMA : SCIMSchema :=
  ⟨[attr "userName" true,
    cattr "name" false nameSubAttrs,
    attr "displayName", attr "nickName",
    attr "profileUrl" false "readWrite" "default" "reference",
    attr "title", attr "userType", attr "preferredLanguage", attr "locale",
    attr "timezone",
    attr "active" false "readWrite" "default" "boolean",
    attr "password" false "writeOnly" "never",
    cattr "emails" true valueDisplayTypePrimarySubAttrs,
    cattr "phoneNumbers" true valueDisplayTypePrimarySubAttrs,
    cattr "ims" true [],
    cattr "photos" true [],
    cattr "addresses" true addressSubAttrs,
    cattr "groups" true [] "readOnly",
    cattr "entitlements" true [],
    cattr "roles" true [],
    cattr "x509Certificates" true [],
    attr "id" false "readOnly" "always",
    attr "externalId",
    cattr "meta" false metaSubAttrs "readOnly"]⟩

def groupMemberSubAttrs : List AttrDef :=
  [attr "value", attr "$ref" false "readOnly" "default" "reference",
   attr "type", attr "display"]

/-- CORE_GROUP_SCHEMA from schemas.py. -/
def CORE_GROUP_SCHEMA : SCIMSchema :=
  ⟨[attr "displayName" true,
    cattr "members" true groupMemberSubAttrs,
    attr "id" false "readOnly" "always",
    attr "externalId",
    cattr "meta" false metaSubAttrs "readOnly"]⟩

def managerSubAttrs : List AttrDef :=
  [attr "value", attr "$ref" false "readOnly" "default" "reference", attr "displayName"]

/-- ENTERPRISE_USER_SCHEMA from schemas.py. -/
def ENTERPRISE_USER_SCHEMA : SCIMSchema :=
  ⟨[attr "employeeNumber", attr "costCenter", attr "organization",
    attr "division", attr "department",
    cattr "manager" false managerSubAttrs]⟩

def refSubAttrsRO : List AttrDef :=
  [attr "value" false "readOnly",
   attr "$ref" false "readOnly" "default" "reference",
   attr "display" false "readOnly"]

def agentGroupsSubAttrs : List AttrDef :=
  [attr "value" false "readOnly",
   attr "$ref" false "readOnly" "default" "reference",
   attr "display" false "readOnly",
   attr "type" false "readOnly"]

def agentRWValueSubAttrs : List AttrDef :=
  [attr "value", attr "display", attr "type",
   attr "primary" false "readWrite" "default" "boolean"]

def agentX509SubAttrs : List AttrDef :=
  [attr "value" false "readWrite" "default" "binary",
   attr "display", attr "type",
   attr "primary" false "readWrite" "default" "boolean"]

def protocolsSubAttrs : List AttrDef :=
  [attr "type" false "readOnly", attr "specifiationUrl" false "readOnly"]

/-- CORE_AGENT_SCHEMA from schemas.py (draft-abbey-scim-agent-extension-00). -/
def CORE_AGENT_SCHEMA : SCIMSchema :=
  ⟨[attr "name" true,
    attr "displayName", attr "agentType",
    attr "active" false "readWrite" "default" "boolean",
    attr "description",
    attr "subject" false "readOnly",
    cattr "groups" true agentGroupsSubAttrs "readOnly",
    cattr "entitlements" true agentRWValueSubAttrs,
    cattr "roles" true agentRWValueSubAttrs,
    cattr "x509Certificates" true agentX509SubAttrs,
    cattr "applications" true refSubAttrsRO "readOnly",
    cattr "owners" true refSubAttrsRO "readOnly",
    cattr "protocols" true protocolsSubAttrs "readOnly",
    cattr "parent" false refSubAttrsRO "readOnly",
    attr "id" false "readOnly" "always",
    attr "externalId",
    cattr "meta" false metaSubAttrs "readOnly"]⟩

/-- CORE_AGENTIC_APPLICATION_SCHEMA from schemas.py. -/
def CORE_AGENTIC_APPLICATION_SCHEMA : SCIMSchema :=
  ⟨[attr "name" true,
    attr "displayName", attr "description",
    attr "active" false "readWrite" "default" "boolean",
    attr "id" false "readOnly" "always",
    attr "externalId",
    cattr "meta" false metaSubAttrs "readOnly"]⟩

def coreUserURN : String := "urn:ietf:params:scim:schemas:core:2.0:User"
def coreGroupURN : String := "urn:ietf:params:scim:schemas:core:2.0:Group"
def coreAgentURN : String := "urn:ietf:params:scim:schemas:core:2.0:Agent"
def coreAgenticApplicationURN : String := "urn:ietf:params:scim:schemas:core:2.0:AgenticApplication"
def enterpriseUserURN : String := "urn:ietf:params:scim:schemas:extension:enterprise:2.0:User"
def patchOpURN : String := "urn:ietf:params:scim:api:messages:2.0:PatchOp"
def listResponseURN : String := "urn:ietf:params:scim:api:messages:2.0:ListResponse"
def errorURN : String := "urn:ietf:params:scim:api:messages:2.0:Error"

/-- get_schema from schemas.py: look a schema up by URN in the SCHEMAS registry. -/
def get_schema (urn : String) : Option SCIMSchema :=
  if urn = coreUserURN then some CORE_USER_SCHEMA
  else if urn = coreGroupURN then some CORE_GROUP_SCHEMA
  else if urn = enterpriseUserURN then some ENTERPRISE_USER_SCHEMA
  else if urn = coreAgentURN then some CORE_AGENT_SCHEMA
  else if urn = coreAgenticApplicationURN then some CORE_AGENTIC_APPLICATION_SCHEMA
  else none

-- ---------------------------------------------------------------------------
-- validator.py — client-side payload validation
-- ---------------------------------------------------------------------------

/-- A payload validation error (validator.py ValidationError).  The `line`
field is always None for the in-memory `validate` entry point modelled here
and is omitted. -/
structure ValidationError where
  message : String
  path : String := ""
deriving Repr, DecidableEq

def vErr (message : String) (path : String := "") : ValidationError :=
  ⟨message, path⟩

/-- Python `str(x)` as used in f-string interpolation of error messages.  In
every run the claims exercise, the interpolated value is a string; the
renderings of containers are abbreviated placeholders. -/
def pyStr : JSON → String
  | JSON.str s => s
  | JSON.bool true => "True"
  | JSON.bool false => "False"
  | JSON.int n => toString n
  | JSON.null => "None"
  | JSON.arr _ => "<list>"
  | JSON.obj _ => "<dict>"

def pyStrOpt : Option JSON → String
  | some v => pyStr v
  | none => "None"

/-- Whether a URN names an extension schema
(`schema_urn.startswith("urn:ietf:params:scim:schemas:extension:")`). -/
def isExtensionURN (urn : String) : Bool :=
  charsPrefixOf "urn:ietf:params:scim:schemas:extension:".data urn.data

def fullPath (is_extension : Bool) (schema_urn attr_name : String) : String :=
  if is_extension then schema_urn ++ "." ++ attr_name else attr_name

/-- _validate_complex_attribute: required sub-attributes of a complex value.
Non-dict values are skipped. -/
def _validate_complex_attribute (value : JSON) (attr_def : AttrDef) (path : String) :
    List ValidationError :=
  match value with
  | JSON.obj o =>
    attr_def.subAttributes.foldl
      (fun es sub =>
        es ++
          (if sub.required && !dictHasKey o sub.name then
            [vErr ("Missing required sub-attribute: \x27" ++ sub.name ++ "\x27 in \x27" ++ path ++ "\x27")
                  (path ++ "." ++ sub.name)]
          else []))
      []
  | _ => []

/-- The `for idx, item in enumerate(value)` loop over a multiValued complex
attribute. -/
def _validate_complex_items (attr_def : AttrDef) (full_path : String) :
    List JSON → Nat → List ValidationError
  | [], _ => []
  | item :: rest, idx =>
      _validate_complex_attribute item attr_def (full_path ++ "[" ++ toString idx ++ "]")
        ++ _validate_complex_items attr_def full_path rest (idx + 1)

/-- The body of the `for attr_def in schema.get("attributes", [])` loop of
_validate_schema_attributes, for one attribute definition. -/
def _validate_one_attribute (extension_data : Dict) (is_extension : Bool)
    (schema_urn : String) (a : AttrDef) : List ValidationError :=
  (if a.required && !dictHasKey extension_data a.name then
    [vErr ("Missing required attribute: \x27" ++ a.name ++ "\x27 (schema: " ++ schema_urn ++ ")")
          (fullPath is_extension schema_urn a.name)]
  else [])
  ++
  (if dictHasKey extension_data a.name && a.type = "complex" then
    match dictGet extension_data a.name with
    | some value =>
      let fp := fullPath is_extension schema_urn a.name
      if a.multiValued then
        match value with
        | JSON.arr items => _validate_complex_items a fp items 0
        | _ => [vErr ("Attribute \x27" ++ a.name ++ "\x27 must be an array (multiValued)") fp]
      else
        _validate_complex_attribute value a fp
    | none => []
  else [])

/-- _validate_schema_attributes from validator.py. -/
def _validate_schema_attributes (data : Dict) (schema_urn : String) (schema : SCIMSchema) :
    List ValidationError :=
  if isExtensionURN schema_urn then
    match dictGetD data schema_urn (JSON.obj []) with
    | JSON.obj extension_data =>
        schema.attributes.foldl
          (fun es a => es ++ _validate_one_attribute extension_data true schema_urn a) []
    | _ => [vErr ("Extension schema \x27" ++ schema_urn ++ "\x27 must be an object") schema_urn]
  else
    schema.attributes.foldl
      (fun es a => es ++ _validate_one_attribute data false schema_urn a) []

/-- The body of the `for schema_urn in schemas` loop of _validate_full_resource:
unknown URNs produce an error and are skipped, known ones are validated.  A
non-string element is a registry miss (in Python an unhashable element would
raise; the claims constrain schema elements to strings). -/
def _validate_schema_loop_step (data : Dict) (urnJson : JSON) : List ValidationError :=
  match urnJson with
  | JSON.str urn =>
    match get_schema urn with
    | some schema => _validate_schema_attributes data urn schema
    | none => [vErr ("Unknown schema URN: " ++ urn)]
  | j => [vErr ("Unknown schema URN: " ++ pyStr j)]

def _validate_user_specific (data : Dict) : List ValidationError :=
  if !dictHasKey data "userName" then
    [vErr "User resource missing required attribute: \x27userName\x27"]
  else []

def _validate_group_specific (data : Dict) : List ValidationError :=
  if !dictHasKey data "displayName" then
    [vErr "Group resource missing required attribute: \x27displayName\x27"]
  else []

/-- Python `data.get("name") == ""`. -/
def getIsEmptyStr (data : Dict) (k : String) : Bool :=
  match dictGet data k with
  | some v => jsonEqStr v ""
  | none => false

def _validate_agent_specific (data : Dict) : List ValidationError :=
  if !dictHasKey data "name" then
    [vErr "Agent resource missing required attribute: \x27name\x27"]
  else if getIsEmptyStr data "name" then
    [vErr "Agent resource \x27name\x27 attribute must be non-empty"]
  else []

def _validate_agentic_application_specific (data : Dict) : List ValidationError :=
  if !dictHasKey data "name" then
    [vErr "AgenticApplication resource missing required attribute: \x27name\x27"]
  else if getIsEmptyStr data "name" then
    [vErr "AgenticApplication resource \x27name\x27 attribute must be non-empty"]
  else []

/-- _check_immutable_attributes, for one schema URN of the `schemas` list.
For an extension URN whose payload section is not a dict the registry
guarantees the inner membership test is never reached (no extension schema
declares a top-level readOnly attribute), so the section is modelled as
empty in that case. -/
def _check_immutable_for_urn (data : Dict) (urnJson : JSON) : List ValidationError :=
  match urnJson with
  | JSON.str urn =>
    match get_schema urn with
    | some schema =>
      let is_extension := isExtensionURN urn
      let check_data : Dict :=
        if is_extension then
          match dictGetD data urn (JSON.obj []) with
          | JSON.obj o => o
          | _ => []
        else data
      schema.attributes.foldl
        (fun es a =>
          es ++
            (if a.mutability = "readOnly" && dictHasKey check_data a.name
                && !(a.name.data.contains '.') then
              [vErr ("Immutable attribute \x27" ++ a.name ++ "\x27 should not be set by client (mutability: readOnly)")
                    (fullPath is_extension urn a.name)]
            else []))
        []
    | none => []
  | _ => []

def _check_immutable_attributes (data : Dict) (schemas : List JSON) : List ValidationError :=
  schemas.foldl (fun es urnJson => es ++ _check_immutable_for_urn data urnJson) []

def _check_null_semantics (data : Dict) : List ValidationError :=
  data.foldl
    (fun es kv =>
      es ++
        (match kv.2 with
        | JSON.null =>
          [vErr ("Attribute \x27" ++ kv.1 ++ "\x27 has null value. Use PATCH \x27remove\x27 operation to clear attributes instead")
                kv.1]
        | _ => []))
    []

def invalidSchemaURNMsg : String :=
  "Invalid schema URN. Must include \x27urn:ietf:params:scim:schemas:core:2.0:User\x27, " ++
  "\x27urn:ietf:params:scim:schemas:core:2.0:Group\x27, " ++
  "\x27urn:ietf:params:scim:schemas:core:2.0:Agent\x27, or " ++
  "\x27urn:ietf:params:scim:schemas:core:2.0:AgenticApplication\x27"

/-- _validate_full_resource from validator.py. -/
def _validate_full_resource (data : Dict) : Bool × List ValidationError :=
  if !dictHasKey data "schemas" then
    (false, [vErr "Missing required field: \x27schemas\x27"])
  else
    match dictGetD data "schemas" (JSON.arr []) with
    | JSON.arr schemas =>
      if schemas.isEmpty then
        (false, [vErr "\x27schemas\x27 must be a non-empty array"])
      else
        let is_user := jsonListHasStr schemas coreUserURN
        let is_group := jsonListHasStr schemas coreGroupURN
        let is_agent := jsonListHasStr schemas coreAgentURN
        let is_agentic_application := jsonListHasStr schemas coreAgenticApplicationURN
        if !is_user && !is_group && !is_agent && !is_agentic_application then
          (false, [vErr invalidSchemaURNMsg])
        else
          let errors := schemas.foldl (fun es urnJson => es ++ _validate_schema_loop_step data urnJson) []
          let errors := errors ++
            (if is_user then _validate_user_specific data
             else if is_group then _validate_group_specific data
             else if is_agent then _validate_agent_specific data
             else if is_agentic_application then _validate_agentic_application_specific data
             else [])
          let errors := errors ++ _check_immutable_attributes data schemas
          let errors := errors ++ _check_null_semantics data
          (errors.isEmpty, errors)
    | _ =>
      (false, [vErr "\x27schemas\x27 must be a non-empty array"])

/-- Python `op_type == s` for a string literal s. -/
def opTypeIs (op_type : Option JSON) (s : String) : Bool :=
  match op_type with
  | some v => jsonEqStr v s
  | none => false

/-- Python `op_type in ["add", "remove", "replace"]`. -/
def opTypeValid (op_type : Option JSON) : Bool :=
  opTypeIs op_type "add" || opTypeIs op_type "remove" || opTypeIs op_type "replace"

/-- One iteration of the `for idx, op in enumerate(operations)` loop of
_validate_patch; the state is (idx, seen_paths, errors). -/
def _validate_patch_op_step (st : Nat × List JSON × List ValidationError) (op : JSON) :
    Nat × List JSON × List ValidationError :=
  let idx := st.1
  let seen := st.2.1
  let errors := st.2.2
  match op with
  | JSON.obj o =>
    let op_type := dictGetPy o "op"
    if !pyTruthy op_type then
      (idx + 1, seen, errors ++ [vErr ("Operation " ++ toString idx ++ ": missing required field \x27op\x27")])
    else
      let errors := errors ++
        (if !opTypeValid op_type then
          [vErr ("Operation " ++ toString idx ++ ": invalid \x27op\x27 value \x27" ++ pyStrOpt op_type
                 ++ "\x27. Must be one of: add, remove, replace")]
        else [])
      let path := dictGetPy o "path"
      let seenErrors :=
        match path with
        | some pv =>
          if pyTruthy (some pv) then
            (pv :: seen,
             errors ++
               (if setHas seen pv then
                 [vErr (("Operation " ++ toString idx ++ ": ") ++
                        ("duplicate" ++ (" path \x27" ++ pyStr pv ++ "\x27 in PATCH operations")))]
               else []))
          else (seen, errors)
        | none => (seen, errors)
      let seen := seenErrors.1
      let errors := seenErrors.2
      let errors := errors ++
        (if opTypeIs op_type "remove" then
          (if !dictHasKey o "path" then
            [vErr ("Operation " ++ toString idx ++ ": \x27remove\x27 operation requires \x27path\x27")]
          else [])
        else if opTypeIs op_type "add" || opTypeIs op_type "replace" then
          (if !dictHasKey o "value" then
            [vErr ("Operation " ++ toString idx ++ ": \x27" ++ pyStrOpt op_type ++ "\x27 operation requires \x27value\x27")]
          else [])
        else [])
      (idx + 1, seen, errors)
  | _ => (idx + 1, seen, errors ++ [vErr ("Operation " ++ toString idx ++ " must be an object")])

def _validate_patch_operations (operations : List JSON) : List ValidationError :=
  (operations.foldl _validate_patch_op_step (0, [], [])).2.2

/-- Python `"urn:ietf:params:scim:api:messages:2.0:PatchOp" not in schemas`
negated.  Membership is modelled for array values; the claims constrain the
schemas value to an array (Python `in` on other types would substring-match
or raise). -/
def schemasHasPatchOp : JSON → Bool
  | JSON.arr l => jsonListHasStr l patchOpURN
  | _ => false

def patchSchemaMissingMsg : String :=
  "PATCH operation must include schema: \x27urn:ietf:params:scim:api:messages:2.0:PatchOp\x27"

/-- _validate_patch from validator.py. -/
def _validate_patch (data : Dict) : Bool × List ValidationError :=
  if !dictHasKey data "schemas" then
    (false, [vErr "Missing required field: \x27schemas\x27"])
  else
    let errors0 :=
      if !schemasHasPatchOp (dictGetD data "schemas" (JSON.arr [])) then
        [vErr patchSchemaMissingMsg]
      else []
    if !dictHasKey data "Operations" then
      (false, errors0 ++ [vErr "Missing required field: \x27Operations\x27"])
    else
      match dictGetD data "Operations" (JSON.arr []) with
      | JSON.arr operations =>
        if operations.isEmpty then
          (false, errors0 ++ [vErr "\x27Operations\x27 array cannot be empty"])
        else
          let errors := errors0 ++ _validate_patch_operations operations
          (errors.isEmpty, errors)
      | _ =>
        (false, errors0 ++ [vErr "\x27Operations\x27 must be an array"])

/-- SCIMValidator.validate: dispatch on the operation argument. -/
def validate (data : Dict) (operation : String := "full") : Bool × List ValidationError :=
  if operation = "patch" then _validate_patch data
  else _validate_full_resource data

-- ---------------------------------------------------------------------------
-- response_validator.py — server-response validation
-- ---------------------------------------------------------------------------

/-- Severity constants from response_validator.py. -/
def FAIL : String := "fail"

def WARN : String := "warn"

/-- A server-response validation finding (ServerValidationError). -/
structure ServerValidationError where
  message : String
  path : String := ""
  severity : String := FAIL
deriving Repr, DecidableEq

def svErr (message : String) (path : String := "") (severity : String := FAIL) :
    ServerValidationError :=
  ⟨message, path, severity⟩

/-- ServerResponseValidator._sev: severity of a finding given the validator
mode (strict) and whether the check is a known real-world deviation. -/
def _sev (strict : Bool) (is_strict_only : Bool := false) : String :=
  if is_strict_only && !strict then WARN else FAIL

/-- ServerResponseValidator._is_valid: only FAIL-severity errors count. -/
def _is_valid (errors : List ServerValidationError) : Bool :=
  !(errors.any fun e => e.severity == FAIL)

/-- _header_value: case-insensitive HTTP header lookup. -/
def _header_value (headers : List (String × String)) (name : String) : Option String :=
  match headers with
  | [] => none
  | (k, v) :: rest => if strLower k = strLower name then some v else _header_value rest name

/-- Python `needle in hay` on strings: contiguous substring. -/
def strContains (hay needle : String) : Bool :=
  charsInfixOf needle.data hay.data

/-- Python `s.strip(Chr(34))` as used on ETag/meta.version: remove leading and
trailing double-quote characters. -/
def stripQuotes (s : String) : String :=
  String.mk (((s.data.dropWhile (· == '"')).reverse.dropWhile (· == '"')).reverse)

/-- Python `s.strip()` (default whitespace strip). -/
def pyStrip (s : String) : String :=
  String.mk (((s.data.dropWhile Char.isWhitespace).reverse.dropWhile Char.isWhitespace).reverse)

/-- The shared Content-Type check of validate_resource_response and
validate_list_response: skipped when `headers` is falsy (None or empty) or
the header is falsy; a value containing application/scim+json passes, one
containing application/json is a strict-only deviation, anything else is a
hard FAIL. -/
def _content_type_errors (strict : Bool) (headers : Option (List (String × String))) :
    List ServerValidationError :=
  match headers with
  | none => []
  | some hs =>
    if hs.isEmpty then []
    else
      match _header_value hs "Content-Type" with
      | none => []
      | some ct =>
        if ct = "" then []
        else if strContains ct "application/scim+json" then []
        else if strContains ct "application/json" then
          [svErr ("Content-Type should be application/scim+json, got \x27" ++ ct ++ "\x27 (RFC 7644 §8.1)")
                 "" (_sev strict true)]
        else
          [svErr ("Content-Type should be application/scim+json, got \x27" ++ ct ++ "\x27 (RFC 7644 §8.1)")]

def metaFieldErrors (m : Dict) : List ServerValidationError :=
  ["resourceType", "created", "lastModified"].foldl
    (fun es f =>
      es ++
        (if !dictHasKey m f then
          [svErr ("meta." ++ f ++ " must be present in server response (RFC 7643 §3.1)") ("meta." ++ f)]
        else []))
    []

def metaVersionTypeErrors (m : Dict) : List ServerValidationError :=
  match dictGetPy m "version" with
  | none => []
  | some (JSON.str _) => []
  | some v =>
    [svErr ("meta.version must be a string, got " ++ pyTypeName v ++ " (RFC 7643 §3.1)") "meta.version"]

/-- The ETag/meta.version consistency check.  It runs only when `headers` and
`meta` are both truthy and meta is a dict; the strip-and-compare is modelled
for string versions (in Python a truthy non-string version here would raise
AttributeError, which no claim exercises). -/
def _etag_errors (strict : Bool) (headers : Option (List (String × String)))
    (meta : Option JSON) : List ServerValidationError :=
  match headers, meta with
  | some hs, some (JSON.obj m) =>
    if hs.isEmpty || m.isEmpty then []
    else
      match _header_value hs "ETag", dictGetPy m "version" with
      | some etag, some (JSON.str version) =>
        if etag ≠ "" ∧ version ≠ "" ∧ stripQuotes etag ≠ stripQuotes version then
          [svErr ("ETag header \x27" ++ etag ++ "\x27 does not match meta.version \x27" ++ version
                  ++ "\x27 (RFC 7644 §3.14)") "" (_sev strict true)]
        else []
      | _, _ => []
  | _, _ => []

/-- Python `loc_header != meta_loc` between a str and a JSON value: inequality
holds for every non-string value. -/
def locNeqJson (loc : String) (ml : JSON) : Bool :=
  match ml with
  | JSON.str s => loc ≠ s
  | _ => true

/-- The Location-header check on 201 Created. -/
def _location_errors (strict : Bool) (actual_status : Nat)
    (headers : Option (List (String × String))) (meta : Option JSON) :
    List ServerValidationError :=
  match headers, meta with
  | some hs, some (JSON.obj m) =>
    if actual_status = 201 ∧ !hs.isEmpty ∧ !m.isEmpty then
      let missingErr :=
        [svErr "Location header should be present on 201 Created (RFC 7644 §3.3)" "" (_sev strict true)]
      match _header_value hs "Location", dictGetPy m "location" with
      | some loc, some ml =>
        if loc ≠ "" then
          (if pyTruthy (some ml) && locNeqJson loc ml then
            [svErr ("Location header \x27" ++ loc ++ "\x27 does not match meta.location \x27" ++ pyStr ml
                    ++ "\x27 (RFC 7644 §3.3)") "" (_sev strict true)]
          else [])
        else missingErr
      | some loc, none => if loc = "" then missingErr else []
      | none, _ => missingErr
    else []
  | _, _ => []

/-- _check_write_only, for one schema URN of the response's `schemas` list. -/
def _check_write_only_for_urn (d : Dict) (urnJson : JSON) : List ServerValidationError :=
  match urnJson with
  | JSON.str urn =>
    match get_schema urn with
    | some schema =>
      let is_extension := isExtensionURN urn
      let checkData : Option Dict :=
        if is_extension then
          match dictGetD d urn (JSON.obj []) with
          | JSON.obj o => some o
          | _ => none
        else some d
      match checkData with
      | some check_data =>
        schema.attributes.foldl
          (fun es a =>
            es ++
              (if (a.returned = "never" || a.mutability = "writeOnly")
                  && dictHasKey check_data a.name then
                [svErr ("writeOnly attribute \x27" ++ a.name
                        ++ "\x27 must not appear in server response (RFC 7643 §7)") a.name]
              else []))
          []
      | none => []
    | none => []
  | _ => []

def _check_write_only (d : Dict) (schemas : List JSON) : List ServerValidationError :=
  schemas.foldl (fun es urnJson => es ++ _check_write_only_for_urn d urnJson) []

/-- Python `rt != expected_type` between a JSON value and a str. -/
def rtNeq (rt : JSON) (expected : String) : Bool :=
  match rt with
  | JSON.str s => s ≠ expected
  | _ => true

/-- _check_resource_type_match from response_validator.py. -/
def _check_resource_type_match (d : Dict) (expected_type : String) : List ServerValidationError :=
  match dictGetD d "meta" (JSON.obj []) with
  | JSON.obj m =>
    match dictGetPy m "resourceType" with
    | some rt =>
      if pyTruthy (some rt) && rtNeq rt expected_type then
        [svErr ("meta.resourceType \x27" ++ pyStr rt ++ "\x27 does not match expected \x27"
                ++ expected_type ++ "\x27") "meta.resourceType"]
      else []
    | none => []
  | _ => []

/-- validate_resource_response from response_validator.py.  The `self.strict`
field is the first argument; `data` is the parsed body (None for an empty
body). -/
def validate_resource_response (strict : Bool) (data : Option Dict)
    (expected_status actual_status : Nat)
    (headers : Option (List (String × String)) := none)
    (resource_type : Option String := none) : Bool × List ServerValidationError :=
  let errors : List ServerValidationError :=
    if actual_status ≠ expected_status then
      [svErr ("Expected HTTP " ++ toString expected_status ++ ", got " ++ toString actual_status
              ++ " (RFC 7644 §3.3)")]
    else []
  if actual_status ≠ expected_status ∧ 400 ≤ actual_status then
    (_is_valid errors, errors)
  else
    match data with
    | none =>
      let errors := errors ++ (if expected_status ≠ 204 then [svErr "Response body is empty"] else [])
      (_is_valid errors, errors)
    | some d =>
      let errors := errors ++ _content_type_errors strict headers
      match dictGet d "schemas" with
      | some (JSON.arr (u :: us)) =>
        let schemas := u :: us
        let errors := errors ++
          (if !dictHasKey d "id" then
            [svErr "Server response missing required attribute \x27id\x27 (RFC 7643 §3.1)"]
          else [])
        let meta := dictGetPy d "meta"
        let errors := errors ++
          (match meta with
          | none => [svErr "Server response missing required attribute \x27meta\x27 (RFC 7643 §3.1)"]
          | some (JSON.obj m) => metaFieldErrors m ++ metaVersionTypeErrors m
          | some _ => [])
        let errors := errors ++ _etag_errors strict headers meta
        let errors := errors ++ _location_errors strict actual_status headers meta
        let errors := errors ++ _check_write_only d schemas
        let errors := errors ++
          (match resource_type with
          | some rt => if rt ≠ "" then _check_resource_type_match d rt else []
          | none => [])
        (_is_valid errors, errors)
      | _ =>
        (false, errors ++ [svErr "Response missing \x27schemas\x27 array (RFC 7643 §3)"])

/-- Python `"urn:...:ListResponse" not in schemas` negated; membership is
modelled for array values (the default `[]` and every claim input are
arrays). -/
def schemasHasListResponse : JSON → Bool
  | JSON.arr l => jsonListHasStr l listResponseURN
  | _ => false

def schemasHasErrorURN : JSON → Bool
  | JSON.arr l => jsonListHasStr l errorURN
  | _ => false

/-- validate_list_response from response_validator.py. -/
def validate_list_response (strict : Bool) (data : Option Dict) (actual_status : Nat)
    (headers : Option (List (String × String)) := none) : Bool × List ServerValidationError :=
  let errors : List ServerValidationError :=
    if actual_status ≠ 200 then
      [svErr ("Expected HTTP 200 for list, got " ++ toString actual_status ++ " (RFC 7644 §3.4.2)")]
    else []
  match data with
  | none =>
    let errors := errors ++ [svErr "Response body is empty"]
    (false, errors)
  | some d =>
    let errors := errors ++ _content_type_errors strict headers
    let errors := errors ++
      (if !schemasHasListResponse (dictGetD d "schemas" (JSON.arr [])) then
        [svErr "ListResponse must include schema \x27urn:ietf:params:scim:api:messages:2.0:ListResponse\x27 (RFC 7644 §3.4.2)"]
      else [])
    let errors := errors ++
      (if !dictHasKey d "totalResults" then
        [svErr "ListResponse missing required attribute \x27totalResults\x27 (RFC 7644 §3.4.2)"]
      else
        match dictGet d "totalResults" with
        | some v =>
          if !pyIsInt v then
            [svErr ("totalResults must be an integer, got " ++ pyTypeName v ++ " (RFC 7644 §3.4.2)")
                   "" (_sev strict true)]
          else []
        | none => [])
    let errors := errors ++
      (if dictHasKey d "Resources" then
        match dictGet d "Resources" with
        | some (JSON.arr _) => []
        | _ => [svErr "\x27Resources\x27 must be an array"]
      else [])
    let errors := errors ++
      ["startIndex", "itemsPerPage"].foldl
        (fun es f =>
          es ++
            (if dictHasKey d f then
              match dictGet d f with
              | some v =>
                if !pyIsInt v then
                  [svErr ("\x27" ++ f ++ "\x27 must be an integer") "" (_sev strict true)]
                else []
              | none => []
            else []))
        []
    (_is_valid errors, errors)

/-- validate_error_response from response_validator.py. -/
def validate_error_response (strict : Bool) (data : Option Dict)
    (expected_status actual_status : Nat) : Bool × List ServerValidationError :=
  let errors : List ServerValidationError :=
    if actual_status ≠ expected_status then
      [svErr ("Expected HTTP " ++ toString expected_status ++ ", got " ++ toString actual_status
              ++ " (RFC 7644 §3.12)")]
    else []
  match data with
  | none =>
    let errors := errors ++ [svErr "Error response body is empty (RFC 7644 §3.12)" "" (_sev strict true)]
    (_is_valid errors, errors)
  | some d =>
    let errors := errors ++
      (if !schemasHasErrorURN (dictGetD d "schemas" (JSON.arr [])) then
        [svErr "Error response must include schema \x27urn:ietf:params:scim:api:messages:2.0:Error\x27 (RFC 7644 §3.12)"
               "" (_sev strict true)]
      else [])
    let errors := errors ++
      (if !dictHasKey d "status" then
        [svErr "Error response missing required attribute \x27status\x27 (RFC 7644 §3.12)"
               "" (_sev strict true)]
      else [])
    (_is_valid errors, errors)

/-- validate_delete_response from response_validator.py. -/
def validate_delete_response (strict : Bool) (actual_status : Nat) (body : String := "") :
    Bool × List ServerValidationError :=
  let errors : List ServerValidationError :=
    if actual_status ≠ 204 then
      [svErr ("Expected HTTP 204 for DELETE, got " ++ toString actual_status ++ " (RFC 7644 §3.6)")]
    else []
  let errors := errors ++
    (if body ≠ "" ∧ pyStrip body ≠ "" then
      [svErr "DELETE 204 response should have no body (RFC 7644 §3.6)" "" (_sev strict true)]
    else [])
  (_is_valid errors, errors)

-- ---------------------------------------------------------------------------
-- http_client.py — response wrapper, 429 retry, redaction
-- ---------------------------------------------------------------------------

/-- The normalized HTTP response wrapper (SCIMResponse). -/
structure SCIMResponse where
  status_code : Nat
  headers : List (String × String)
  body : String := ""
deriving Repr, DecidableEq

/-- SCIMResponse.header: case-insensitive header lookup (same scan as
_header_value in response_validator.py). -/
def SCIMResponse.header (r : SCIMResponse) (name : String) : Option String :=
  _header_value r.headers name

/-- Retry policy constants from http_client.py. -/
def _MAX_RETRIES : Nat := 3

def _DEFAULT_RETRY_AFTER : ℚ := 2

def digitsNat (cs : List Char) : Nat :=
  cs.foldl (fun n c => n * 10 + (c.toNat - 48)) 0

/-- Modelled from the Python builtin float(): parsing of a plain decimal
numeral (optional sign, digits, optional fractional part) into the exact
rational it denotes, built with `mkRat`.  Strings outside this grammar are
rejected; of Python's wider float() grammar (exponents, inf/nan, surrounding
whitespace, underscores) nothing is exercised by the claims. -/
def parsePyFloat (s : String) : Option ℚ :=
  let signRest : Int × List Char :=
    match s.data with
    | '-' :: cs => (-1, cs)
    | '+' :: cs => (1, cs)
    | cs => (1, cs)
  let sign := signRest.1
  let rest := signRest.2
  let intPart := rest.takeWhile Char.isDigit
  let afterInt := rest.drop intPart.length
  match afterInt with
  | [] =>
    if intPart.isEmpty then none
    else some (mkRat (sign * digitsNat intPart) 1)
  | '.' :: fracCs =>
    if fracCs.all Char.isDigit && !(intPart.isEmpty && fracCs.isEmpty) then
      some (mkRat (sign * (digitsNat intPart * 10 ^ fracCs.length + digitsNat fracCs))
                  (10 ^ fracCs.length))
    else none
  | _ => none

/-- Python `max(a, b)`: the second argument only when it is strictly
greater. -/
def pyMax (a b : ℚ) : ℚ :=
  if a < b then b else a

/-- _parse_retry_after from http_client.py: seconds to wait before a 429
retry.  `if not value` covers both a missing header and an empty string; an
unparseable value falls back to the default; the result is floored at 1 via
`max(1.0, ...)`. -/
def _parse_retry_after (value : Option String) : ℚ :=
  match value with
  | none => _DEFAULT_RETRY_AFTER
  | some v =>
    if v = "" then _DEFAULT_RETRY_AFTER
    else
      match parsePyFloat v with
      | some q => pyMax 1 q
      | none => _DEFAULT_RETRY_AFTER

/-- The `for attempt in range(_MAX_RETRIES + 1)` loop of SCIMClient._request,
with the loop counter carried as the number of remaining retries
(`_MAX_RETRIES - attempt`): the source retries while the status is 429 and
`attempt < _MAX_RETRIES`.  The transport is abstracted as the map from
attempt number to the server's response; the returned list materialises the
loop's side effect, the successive `time.sleep` durations. -/
def _request_loop (responses : Nat → SCIMResponse) :
    Nat → Nat → List ℚ → SCIMResponse × List ℚ
  | 0, attempt, sleeps => (responses attempt, sleeps)
  | r + 1, attempt, sleeps =>
    let resp := responses attempt
    if resp.status_code = 429 then
      _request_loop responses r (attempt + 1)
        (sleeps ++ [_parse_retry_after (resp.header "Retry-After")])
    else (resp, sleeps)

/-- SCIMClient._request: execute with automatic 429 retry, returning the
final response and the sleeps performed. -/
def _request (responses : Nat → SCIMResponse) : SCIMResponse × List ℚ :=
  _request_loop responses _MAX_RETRIES 0 []

/-- Python dict assignment `d[k] = v`: replace the value in place when the
key exists (keeping insertion order and the stored key), append otherwise. -/
def dictAssign {α : Type} (d : List (String × α)) (k : String) (v : α) :
    List (String × α) :=
  if k ∈ d.map Prod.fst then
    d.map fun p => if p.1 = k then (p.1, v) else p
  else d ++ [(k, v)]

/-- redact_auth from http_client.py: `redacted = dict(headers)` (a fresh
copy, so the caller's map is untouched), then
`for key in list(redacted.keys())`, assigning `***REDACTED***` to every key
whose lower-casing is `authorization`.  The loop is a fold of dict
assignments over the copy's key list. -/
def redact_auth (headers : List (String × String)) : List (String × String) :=
  (headers.map Prod.fst).foldl
    (fun redacted key =>
      if strLower key = "authorization" then dictAssign redacted key "***REDACTED***"
      else redacted)
    headers

-- ---------------------------------------------------------------------------
-- payload_factory.py — probe payload generation
-- ---------------------------------------------------------------------------

/-- Python `payload.update(extra)`: a fold of dict assignments. -/
def dictUpdate (d : Dict) (extra : Dict) : Dict :=
  extra.foldl (fun acc kv => dictAssign acc kv.1 kv.2) d

/-- Apply the trailing `if extra: payload.update(extra)` of each factory
(None and the empty dict are falsy). -/
def applyExtra (payload : Dict) (extra : Option Dict) : Dict :=
  match extra with
  | some e => if !e.isEmpty then dictUpdate payload e else payload
  | none => payload

/-- make_user from payload_factory.py.  The per-call `uuid.uuid4().hex[:8]`
suffix is the `suffix` argument. -/
def make_user (suffix : String) (extra : Option Dict := none) : Dict :=
  let payload : Dict :=
    [("schemas", JSON.arr [JSON.str coreUserURN]),
     ("userName", JSON.str ("scim-sanity-test-" ++ suffix ++ "@example.com")),
     ("name", JSON.obj [("givenName", JSON.str "SCIMSanity"),
                        ("familyName", JSON.str ("Test-" ++ suffix))]),
     ("displayName", JSON.str ("SCIM Sanity Test User " ++ suffix)),
     ("active", JSON.bool true),
     ("emails", JSON.arr [JSON.obj [("value", JSON.str ("scim-sanity-test-" ++ suffix ++ "@example.com")),
                                    ("type", JSON.str "work"),
                                    ("primary", JSON.bool true)]])]
  applyExtra payload extra

/-- make_group from payload_factory.py (`if members:` skips None and []). -/
def make_group (suffix : String) (members : Option (List JSON) := none)
    (extra : Option Dict := none) : Dict :=
  let payload : Dict :=
    [("schemas", JSON.arr [JSON.str coreGroupURN]),
     ("displayName", JSON.str ("scim-sanity-test-group-" ++ suffix))]
  let payload :=
    match members with
    | some ms => if !ms.isEmpty then dictAssign payload "members" (JSON.arr ms) else payload
    | none => payload
  applyExtra payload extra

/-- make_agent from payload_factory.py. -/
def make_agent (suffix : String) (extra : Option Dict := none) : Dict :=
  let payload : Dict :=
    [("schemas", JSON.arr [JSON.str coreAgentURN]),
     ("name", JSON.str ("scim-sanity-test-agent-" ++ suffix)),
     ("displayName", JSON.str ("SCIM Sanity Test Agent " ++ suffix)),
     ("active", JSON.bool true)]
  applyExtra payload extra

/-- make_agentic_application from payload_factory.py. -/
def make_agentic_application (suffix : String) (extra : Option Dict := none) : Dict :=
  let payload : Dict :=
    [("schemas", JSON.arr [JSON.str coreAgenticApplicationURN]),
     ("name", JSON.str ("scim-sanity-test-app-" ++ suffix)),
     ("displayName", JSON.str ("SCIM Sanity Test App " ++ suffix)),
     ("active", JSON.bool true)]
  applyExtra payload extra

/-- make_patch from payload_factory.py. -/
def make_patch (operations : List JSON) : Dict :=
  [("schemas", JSON.arr [JSON.str patchOpURN]),
   ("Operations", JSON.arr operations)]

/-- update_user_display_name from payload_factory.py:
`updated = dict(original)` (a shallow copy, leaving the caller's dict
untouched) followed by `updated["displayName"] = new_name`. -/
def update_user_display_name (original : Dict) (new_name : String) : Dict :=
  dictAssign original "displayName" (JSON.str new_name)

-- ---------------------------------------------------------------------------
-- probe/runner.py and probe/report.py — orchestrator exit code
-- ---------------------------------------------------------------------------

/-- ProbeResult from probe/report.py. -/
structure ProbeResult where
  name : String
  status : String
  message : String := ""
  details : String := ""
  phase : String := ""
deriving Repr, DecidableEq

def ProbeResult.PASS : String := "pass"

def ProbeResult.FAIL : String := "fail"

def ProbeResult.WARN : String := "warn"

def ProbeResult.SKIP : String := "skip"

def ProbeResult.ERROR : String := "error"

/-- run_probe from probe/runner.py, with the network-driving phase calls
(lines 89-181 of runner.py) abstracted into `phase_results`, the ProbeResult
list a run accumulates.  The embedded parts are the safety gate (refuse and
return 1 before any client is built unless accept_side_effects) and the exit
code computation (1 iff some result has status FAIL or ERROR).  The Bool in
the result records whether the run proceeded past the gate, i.e. whether any
network traffic was issued. -/
def run_probe (accept_side_effects : Bool) (phase_results : List ProbeResult) : Nat × Bool :=
  if !accept_side_effects then (1, false)
  else
    let has_failures := phase_results.any fun r =>
      r.status == ProbeResult.FAIL || r.status == ProbeResult.ERROR
    ((if has_failures then 1 else 0), true)

-- ---------------------------------------------------------------------------
-- C4: the 429 retry loop
-- ---------------------------------------------------------------------------

/-- The server that answers the first request with 429 and a fractional
Retry-After header, then succeeds. -/
def throttledOnceFractional : Nat → SCIMResponse := fun n =>
  if n = 0 then ⟨429, [("Retry-After", "1.5")], ""⟩ else ⟨200, [], "ok"⟩

-- ---------------------------------------------------------------------------
-- General helper lemmas
-- ---------------------------------------------------------------------------

theorem foldl_append_nil {β γ : Type} (f : β → List γ) :
    ∀ (l : List β) (es : List γ), (∀ a ∈ l, f a = []) →
      l.foldl (fun es a => es ++ f a) es = es := by
  intro l
  induction l with
  | nil => intro es _; rfl
  | cons a rest ih =>
    intro es h
    simp only [List.foldl_cons]
    rw [h a (List.mem_cons_self a rest), List.append_nil]
    exact ih es fun b hb => h b (List.mem_cons_of_mem a hb)

theorem dictGet_some_hasKey {d : Dict} {k : String} {v : JSON}
    (h : dictGet d k = some v) : dictHasKey d k = true := by
  induction d with
  | nil => simp [dictGet] at h
  | cons p rest ih =>
    by_cases hk : p.1 = k
    · simp [dictHasKey, hk]
    · simp only [dictGet, hk, if_false] at h
      simp [dictHasKey, hk, ih h]

/-- The first character of a string, the handle for proving two
differently-prefixed error messages distinct. -/
def firstChar (s : String) : Option Char :=
  s.data.head?

theorem data_append (a b : String) : (a ++ b).data = a.data ++ b.data := rfl

theorem firstChar_append (a x : String) (h : a.data ≠ []) :
    firstChar (a ++ x) = firstChar a := by
  unfold firstChar
  rw [data_append]
  cases hd : a.data with
  | nil => exact absurd hd h
  | cons c cs => rfl

theorem ne_of_firstChar_ne {s t : String} (h : firstChar s ≠ firstChar t) : s ≠ t :=
  fun he => h (congrArg firstChar he)

-- ---------------------------------------------------------------------------
-- Python dict assignment lemmas (shared by the redaction and factory claims)
-- ---------------------------------------------------------------------------

theorem get_mapReplace (k : String) (v : JSON) : ∀ (d : Dict), k ∈ d.map Prod.fst →
    dictGet (d.map (fun p => if p.1 = k then (p.1, v) else p)) k = some v := by
  intro d
  induction d with
  | nil => intro h; simp at h
  | cons p rest ih =>
    intro hmem
    by_cases h : p.1 = k
    · simp only [List.map_cons]
      rw [if_pos h]
      simp [dictGet, h]
    · have hr : k ∈ rest.map Prod.fst := by
        simp only [List.map_cons, List.mem_cons] at hmem
        rcases hmem with h1 | h1
        · exact absurd h1.symm h
        · exact h1
      simp only [List.map_cons]
      rw [if_neg h]
      simp [dictGet, h, ih hr]

theorem get_append_fresh (k : String) (v : JSON) : ∀ (d : Dict), k ∉ d.map Prod.fst →
    dictGet (d ++ [(k, v)]) k = some v := by
  intro d
  induction d with
  | nil => intro _; simp [dictGet]
  | cons p rest ih =>
    intro hmem
    have h : p.1 ≠ k := fun he => hmem (by simp [he])
    have hr : k ∉ rest.map Prod.fst := fun hm => hmem (by simp [hm])
    simp [dictGet, h, ih hr]

theorem get_mapReplace_other (k : String) (v : JSON) (q : String) (hq : q ≠ k) :
    ∀ (d : Dict),
      dictGet (d.map (fun p => if p.1 = k then (p.1, v) else p)) q = dictGet d q := by
  intro d
  induction d with
  | nil => rfl
  | cons p rest ih =>
    by_cases h : p.1 = k
    · have hpq : p.1 ≠ q := fun he => hq (he.symm.trans h)
      simp only [List.map_cons]
      rw [if_pos h]
      simp only [dictGet]
      rw [if_neg hpq, if_neg hpq]
      exact ih
    · simp only [List.map_cons]
      rw [if_neg h]
      by_cases h2 : p.1 = q
      · simp [dictGet, h2]
      · simp [dictGet, h2, ih]

theorem get_append_other (k : String) (v : JSON) (q : String) (hq : q ≠ k) :
    ∀ (d : Dict), dictGet (d ++ [(k, v)]) q = dictGet d q := by
  intro d
  induction d with
  | nil =>
    have hkq : ¬k = q := fun he => hq he.symm
    simp [dictGet, hkq]
  | cons p rest ih =>
    by_cases h2 : p.1 = q
    · simp [dictGet, h2]
    · simp [dictGet, h2, ih]

theorem dictAssign_get_self (d : Dict) (k : String) (v : JSON) :
    dictGet (dictAssign d k v) k = some v := by
  unfold dictAssign
  split
  · exact get_mapReplace k v d (by assumption)
  · exact get_append_fresh k v d (by assumption)

theorem dictAssign_get_other (d : Dict) (k : String) (v : JSON) (q : String) (hq : q ≠ k) :
    dictGet (dictAssign d k v) q = dictGet d q := by
  unfold dictAssign
  split
  · exact get_mapReplace_other k v q hq d
  · exact get_append_other k v q hq d

theorem dictAssign_fst {α : Type} (d : List (String × α)) (k : String) (v : α) :
    ∀ p ∈ dictAssign d k v, p.1 = k → p.2 = v := by
  unfold dictAssign
  split
  · intro p hp hpk
    rw [List.mem_map] at hp
    obtain ⟨q, _, hq⟩ := hp
    by_cases h : q.1 = k
    · rw [if_pos h] at hq
      exact (congrArg Prod.snd hq).symm
    · rw [if_neg h] at hq
      rw [← hq] at hpk
      exact absurd hpk h
  · rename_i hnot
    intro p hp hpk
    rcases List.mem_append.mp hp with hin | hone
    · exact absurd (hpk ▸ List.mem_map_of_mem Prod.fst hin) hnot
    · have : p = (k, v) := by simpa using hone
      rw [this]

theorem dictAssign_mem_keys {α : Type} (d : List (String × α)) (k : String) (v : α) :
    k ∈ (dictAssign d k v).map Prod.fst := by
  unfold dictAssign
  split
  · rename_i h
    rw [List.map_map]
    have hco : (Prod.fst ∘ fun p : String × α => if p.1 = k then (p.1, v) else p) = Prod.fst := by
      funext p; by_cases hp : p.1 = k <;> simp [hp]
    rw [hco]; exact h
  · rw [List.map_append]
    exact List.mem_append.mpr (Or.inr (by simp))

theorem dictAssign_keys_of_mem {α : Type} (d : List (String × α)) (k : String) (v : α)
    (h : k ∈ d.map Prod.fst) : (dictAssign d k v).map Prod.fst = d.map Prod.fst := by
  unfold dictAssign
  rw [if_pos h, List.map_map]
  have hco : (Prod.fst ∘ fun p : String × α => if p.1 = k then (p.1, v) else p) = Prod.fst := by
    funext p; by_cases hp : p.1 = k <;> simp [hp]
  rw [hco]

theorem dictAssign_idem {α : Type} (d : List (String × α)) (k : String) (v : α) :
    dictAssign (dictAssign d k v) k v = dictAssign d k v := by
  have hmem := dictAssign_mem_keys d k v
  have hfst := dictAssign_fst d k v
  conv_lhs => rw [dictAssign]
  rw [if_pos hmem]
  have hid : ∀ p ∈ dictAssign d k v, (if p.1 = k then (p.1, v) else p) = p := by
    intro p hp
    by_cases h : p.1 = k
    · rw [if_pos h, ← hfst p hp h]
    · rw [if_neg h]
  calc (dictAssign d k v).map (fun p => if p.1 = k then (p.1, v) else p)
      = (dictAssign d k v).map id := List.map_congr_left hid
    _ = dictAssign d k v := List.map_id _

-- ---------------------------------------------------------------------------
-- C8: redact_auth
-- ---------------------------------------------------------------------------

theorem redact_fold (ks : List String) :
    ∀ (d : List (String × String)), (∀ k ∈ ks, k ∈ d.map Prod.fst) →
      ks.foldl
        (fun redacted key =>
          if strLower key = "authorization" then dictAssign redacted key "***REDACTED***"
          else redacted) d
      = d.map (fun p =>
          if strLower p.1 = "authorization" ∧ p.1 ∈ ks then (p.1, "***REDACTED***") else p) := by
  induction ks with
  | nil =>
    intro d _
    simp
  | cons k ks ih =>
    intro d hks
    simp only [List.foldl_cons]
    by_cases hk : strLower k = "authorization"
    · rw [if_pos hk]
      have hkd : k ∈ d.map Prod.fst := hks k (List.mem_cons_self _ _)
      rw [dictAssign, if_pos hkd]
      have hkeys :
          (d.map (fun p => if p.1 = k then (p.1, "***REDACTED***") else p)).map Prod.fst
            = d.map Prod.fst := by
        rw [List.map_map]
        apply List.map_congr_left
        intro p _
        by_cases hp : p.1 = k <;> simp [hp]
      rw [ih _ (fun x hx => hkeys ▸ hks x (List.mem_cons_of_mem _ hx))]
      rw [List.map_map]
      apply List.map_congr_left
      intro p _
      by_cases hpk : p.1 = k
      · have h1 : strLower p.1 = "authorization" := by rw [hpk]; exact hk
        simp only [Function.comp_apply, if_pos hpk]
        simp [h1, hpk, hk]
      · simp only [Function.comp_apply, if_neg hpk]
        simp [List.mem_cons, hpk]
    · rw [if_neg hk]
      rw [ih d (fun x hx => hks x (List.mem_cons_of_mem _ hx))]
      apply List.map_congr_left
      intro p _
      by_cases hpk : p.1 = k
      · have h1 : ¬strLower p.1 = "authorization" := by rw [hpk]; exact hk
        simp [h1]
      · simp [List.mem_cons, hpk]

theorem redact_auth_eq (h : List (String × String)) :
    redact_auth h
      = h.map (fun p =>
          if strLower p.1 = "authorization" then (p.1, "***REDACTED***") else p) := by
  unfold redact_auth
  rw [redact_fold (h.map Prod.fst) h (fun k hk => hk)]
  apply List.map_congr_left
  intro p hp
  have hmem : p.1 ∈ h.map Prod.fst := List.mem_map_of_mem _ hp
  by_cases hc : strLower p.1 = "authorization"
  · simp [hc, hmem]
  · simp [hc]

/-- C8: redact_auth returns a map with the same key sequence as its input in
which every entry whose key lower-cases to `authorization` carries the value
`***REDACTED***` and every other entry is unchanged.  The input map is not
mutated: `redact_auth` operates on the copy `dict(headers)` and is embedded
as a pure function of its argument. -/
theorem claim_C8 (h : List (String × String)) :
    ((redact_auth h).map Prod.fst = h.map Prod.fst) ∧
    redact_auth h
      = h.map (fun p =>
          if strLower p.1 = "authorization" then (p.1, "***REDACTED***") else p) := by
  refine ⟨?_, redact_auth_eq h⟩
  rw [redact_auth_eq, List.map_map]
  apply List.map_congr_left
  intro p _
  by_cases hc : strLower p.1 = "authorization" <;> simp [hc]

-- ---------------------------------------------------------------------------
-- C9: update_user_display_name
-- ---------------------------------------------------------------------------

/-- C9: update_user_display_name leaves its input untouched (it assigns into
the shallow copy `dict(original)`; the embedding is a pure function), maps
`displayName` to the new name, preserves every other top-level entry, and is
idempotent under repeated application with the same name. -/
theorem claim_C9 (u : Dict) (name : String) :
    dictGet (update_user_display_name u name) "displayName" = some (JSON.str name) ∧
    (∀ k, k ≠ "displayName" → dictGet (update_user_display_name u name) k = dictGet u k) ∧
    update_user_display_name (update_user_display_name u name) name
      = update_user_display_name u name :=
  ⟨dictAssign_get_self u "displayName" (JSON.str name),
   fun k hk => dictAssign_get_other u "displayName" (JSON.str name) k hk,
   dictAssign_idem u "displayName" (JSON.str name)⟩

/-- C9 witness: the untouched-entry clause applied to a factory user and the
`userName` key. -/
theorem claim_C9_witness :
    dictGet (update_user_display_name (make_user "ab12cd34" none) "New Name") "userName"
      = dictGet (make_user "ab12cd34" none) "userName" :=
  (claim_C9 (make_user "ab12cd34" none) "New Name").2.1 "userName" (by decide)

-- ---------------------------------------------------------------------------
-- C7: run_probe exit code and safety gate
-- ---------------------------------------------------------------------------

/-- C7: with accept_side_effects false, run_probe exits 1 without issuing any
network traffic (the gate flag of the embedding stays false); with it true,
the exit code is 0 exactly when no accumulated ProbeResult has status FAIL or
ERROR, so WARN and SKIP results never produce a nonzero exit code. -/
theorem claim_C7 (results : List ProbeResult) :
    run_probe false results = (1, false) ∧
    (run_probe true results).2 = true ∧
    ((run_probe true results).1 = 0 ↔
      ∀ r ∈ results, r.status ≠ ProbeResult.FAIL ∧ r.status ≠ ProbeResult.ERROR) := by
  refine ⟨rfl, rfl, ?_⟩
  have hgate : run_probe true results
      = ((if results.any (fun r => r.status == ProbeResult.FAIL || r.status == ProbeResult.ERROR)
          then 1 else 0), true) := rfl
  rw [hgate]
  constructor
  · intro h0 r hr
    refine ⟨fun hf => ?_, fun he => ?_⟩
    · have hany : (results.any fun r =>
          r.status == ProbeResult.FAIL || r.status == ProbeResult.ERROR) = true := by
        rw [List.any_eq_true]
        exact ⟨r, hr, by simp [hf]⟩
      rw [hany] at h0
      simp at h0
    · have hany : (results.any fun r =>
          r.status == ProbeResult.FAIL || r.status == ProbeResult.ERROR) = true := by
        rw [List.any_eq_true]
        exact ⟨r, hr, by simp [he]⟩
      rw [hany] at h0
      simp at h0
  · intro hall
    have hany : (results.any fun r =>
        r.status == ProbeResult.FAIL || r.status == ProbeResult.ERROR) = false := by
      rw [List.any_eq_false]
      intro r hr
      simp only [Bool.or_eq_true, beq_iff_eq, not_or]
      exact ⟨(hall r hr).1, (hall r hr).2⟩
    rw [hany]
    simp

/-- C7 witness: a run with only WARN and SKIP results exits 0; a refused run
exits 1 with no traffic. -/
theorem claim_C7_witness :
    run_probe false [⟨"t", "fail", "", "", ""⟩] = (1, false) ∧
    (run_probe true [⟨"a", "warn", "", "", ""⟩, ⟨"b", "skip", "", "", ""⟩]).1 = 0 :=
  ⟨(claim_C7 [⟨"t", "fail", "", "", ""⟩]).1,
   (claim_C7 [⟨"a", "warn", "", "", ""⟩, ⟨"b", "skip", "", "", ""⟩]).2.2.mpr (by decide)⟩

-- ---------------------------------------------------------------------------
-- Full-resource validation lemmas (C1 and C6)
-- ---------------------------------------------------------------------------

theorem _validate_complex_attribute_nil (v : JSON) (a : AttrDef) (p : String)
    (hsub : ∀ sub ∈ a.subAttributes, sub.required = false) :
    _validate_complex_attribute v a p = [] := by
  cases v with
  | obj o =>
    unfold _validate_complex_attribute
    apply foldl_append_nil
    intro sub hs
    rw [hsub sub hs]
    rfl
  | null => rfl
  | bool b => rfl
  | int n => rfl
  | str s => rfl
  | arr l => rfl

theorem _validate_complex_items_nil (a : AttrDef) (fp : String)
    (hsub : ∀ sub ∈ a.subAttributes, sub.required = false) :
    ∀ (items : List JSON) (idx : Nat), _validate_complex_items a fp items idx = [] := by
  intro items
  induction items with
  | nil => intro idx; rfl
  | cons it rest ih =>
    intro idx
    unfold _validate_complex_items
    rw [_validate_complex_attribute_nil it a _ hsub, ih (idx + 1)]
    rfl

theorem one_attr_complex_multi_nil (d : Dict) (is_ext : Bool) (urn : String) (a : AttrDef)
    (hreq : a.required = false) (hsub : ∀ sub ∈ a.subAttributes, sub.required = false)
    (items : List JSON) (hget : dictGet d a.name = some (JSON.arr items))
    (hmv : a.multiValued = true) :
    _validate_one_attribute d is_ext urn a = [] := by
  obtain ⟨n, t, r, mv, mu, re, sub⟩ := a
  simp only [AttrDef.required] at hreq
  simp only [AttrDef.multiValued] at hmv
  simp only [AttrDef.name] at hget
  simp only [AttrDef.subAttributes] at hsub
  subst hreq hmv
  have hk := dictGet_some_hasKey hget
  unfold _validate_one_attribute
  simp only [AttrDef.name, AttrDef.type, AttrDef.required, AttrDef.multiValued,
    AttrDef.subAttributes, Bool.false_and, Bool.false_eq_true, if_false, List.nil_append]
  by_cases ht : t = "complex"
  · subst ht
    rw [hget]
    simp only [hk, Bool.true_and]
    rw [if_pos (by decide)]
    exact _validate_complex_items_nil (AttrDef.mk n "complex" false true mu re sub) _ hsub items 0
  · simp [ht]

theorem _validate_schema_attributes_nil (data : Dict) (urn : String) (schema : SCIMSchema)
    (hext : isExtensionURN urn = false)
    (h : ∀ a ∈ schema.attributes, _validate_one_attribute data false urn a = []) :
    _validate_schema_attributes data urn schema = [] := by
  unfold _validate_schema_attributes
  rw [hext]
  simp only [Bool.false_eq_true, if_false]
  exact foldl_append_nil _ _ _ h

theorem _check_immutable_for_urn_core (data : Dict) (urn : String) (schema : SCIMSchema)
    (hs : get_schema urn = some schema) (hext : isExtensionURN urn = false)
    (h : ∀ a ∈ schema.attributes, a.mutability = "readOnly" → dictHasKey data a.name = false) :
    _check_immutable_for_urn data (JSON.str urn) = [] := by
  simp only [_check_immutable_for_urn]
  rw [hs]
  simp only [hext, Bool.false_eq_true, if_false]
  apply foldl_append_nil
  intro a ha
  by_cases hm : a.mutability = "readOnly"
  · rw [h a ha hm]
    simp [hm]
  · simp [hm]

theorem _check_immutable_attributes_single (data : Dict) (u : JSON) :
    _check_immutable_attributes data [u] = _check_immutable_for_urn data u := by
  unfold _check_immutable_attributes
  simp

/-- Under the hypotheses that the document carries a non-empty schemas array
containing at least one core URN and that every validation stage reports no
error, _validate_full_resource returns a clean result. -/
theorem _validate_full_resource_ok (data : Dict) (l : List JSON)
    (hget : dictGet data "schemas" = some (JSON.arr l))
    (hne : l.isEmpty = false)
    (hflags : (jsonListHasStr l coreUserURN || jsonListHasStr l coreGroupURN
               || jsonListHasStr l coreAgentURN
               || jsonListHasStr l coreAgenticApplicationURN) = true)
    (hloop : ∀ u ∈ l, _validate_schema_loop_step data u = [])
    (hspec : (if jsonListHasStr l coreUserURN then _validate_user_specific data
              else if jsonListHasStr l coreGroupURN then _validate_group_specific data
              else if jsonListHasStr l coreAgentURN then _validate_agent_specific data
              else if jsonListHasStr l coreAgenticApplicationURN then
                _validate_agentic_application_specific data
              else []) = [])
    (himm : _check_immutable_attributes data l = [])
    (hnull : _check_null_semantics data = []) :
    _validate_full_resource data = (true, []) := by
  have hk : dictHasKey data "schemas" = true := dictGet_some_hasKey hget
  have hgd : dictGetD data "schemas" (JSON.arr []) = JSON.arr l := by
    unfold dictGetD; rw [hget]
  have hcond : (!jsonListHasStr l coreUserURN && !jsonListHasStr l coreGroupURN
      && !jsonListHasStr l coreAgentURN && !jsonListHasStr l coreAgenticApplicationURN)
      = false := by
    revert hflags
    cases jsonListHasStr l coreUserURN <;> cases jsonListHasStr l coreGroupURN <;>
      cases jsonListHasStr l coreAgentURN <;> cases jsonListHasStr l coreAgenticApplicationURN <;>
      simp
  unfold _validate_full_resource
  rw [hk, hgd]
  simp only [Bool.not_true, Bool.false_eq_true, if_false]
  rw [hne]
  simp only [Bool.false_eq_true, if_false]
  rw [hcond]
  simp only [Bool.false_eq_true, if_false]
  rw [foldl_append_nil _ l [] hloop, hspec, himm, hnull]
  rfl

/-- When no core URN is present in a non-empty schemas array, the validator
returns invalid with exactly the Invalid-schema-URN error. -/
theorem _validate_full_resource_no_core (data : Dict) (l : List JSON)
    (hget : dictGet data "schemas" = some (JSON.arr l))
    (hne : l.isEmpty = false)
    (h1 : jsonListHasStr l coreUserURN = false)
    (h2 : jsonListHasStr l coreGroupURN = false)
    (h3 : jsonListHasStr l coreAgentURN = false)
    (h4 : jsonListHasStr l coreAgenticApplicationURN = false) :
    _validate_full_resource data = (false, [vErr invalidSchemaURNMsg]) := by
  have hk : dictHasKey data "schemas" = true := dictGet_some_hasKey hget
  have hgd : dictGetD data "schemas" (JSON.arr []) = JSON.arr l := by
    unfold dictGetD; rw [hget]
  unfold _validate_full_resource
  rw [hk, hgd]
  simp only [Bool.not_true, Bool.false_eq_true, if_false]
  rw [hne]
  simp only [Bool.false_eq_true, if_false]
  rw [h1, h2, h3, h4]
  rfl

-- ---------------------------------------------------------------------------
-- C6: factory payloads validate cleanly
-- ---------------------------------------------------------------------------

theorem validate_make_user_clean (s : String) :
    validate (make_user s none) "full" = (true, []) := by
  show _validate_full_resource (make_user s none) = (true, [])
  refine _validate_full_resource_ok _ _ rfl rfl rfl ?_ rfl ?_ rfl
  · intro u hu
    fin_cases hu
    show _validate_schema_attributes (make_user s none) coreUserURN CORE_USER_SCHEMA = []
    apply _validate_schema_attributes_nil _ _ _ (by decide)
    intro a ha
    fin_cases ha <;> rfl
  · rw [_check_immutable_attributes_single]
    refine _check_immutable_for_urn_core _ _ _ rfl (by decide) ?_
    intro a ha hro
    fin_cases ha <;> first | rfl | exact absurd hro (by decide)

theorem validate_make_group_clean (s : String) (members : Option (List JSON)) :
    validate (make_group s members none) "full" = (true, []) := by
  have base : ∀ (d : Dict), d = make_group s none none →
      _validate_full_resource d = (true, []) := by
    intro d hd
    subst hd
    refine _validate_full_resource_ok _ _ rfl rfl rfl ?_ rfl ?_ rfl
    · intro u hu
      fin_cases hu
      show _validate_schema_attributes (make_group s none none) coreGroupURN CORE_GROUP_SCHEMA = []
      apply _validate_schema_attributes_nil _ _ _ (by decide)
      intro a ha
      fin_cases ha <;> rfl
    · rw [_check_immutable_attributes_single]
      refine _check_immutable_for_urn_core _ _ _ rfl (by decide) ?_
      intro a ha hro
      fin_cases ha <;> first | rfl | exact absurd hro (by decide)
  cases members with
  | none => exact base _ rfl
  | some ms =>
    cases ms with
    | nil => exact base _ rfl
    | cons m tl =>
      show _validate_full_resource (make_group s (some (m :: tl)) none) = (true, [])
      refine _validate_full_resource_ok _ _ rfl rfl rfl ?_ rfl ?_ rfl
      · intro u hu
        fin_cases hu
        show _validate_schema_attributes (make_group s (some (m :: tl)) none) coreGroupURN
          CORE_GROUP_SCHEMA = []
        apply _validate_schema_attributes_nil _ _ _ (by decide)
        intro a ha
        fin_cases ha
        · rfl
        · exact one_attr_complex_multi_nil _ false coreGroupURN _ rfl (by decide) (m :: tl) rfl rfl
        · rfl
        · rfl
        · rfl
      · rw [_check_immutable_attributes_single]
        refine _check_immutable_for_urn_core _ _ _ rfl (by decide) ?_
        intro a ha hro
        fin_cases ha <;> first | rfl | exact absurd hro (by decide)

theorem validate_make_agent_clean (s : String) :
    validate (make_agent s none) "full" = (true, []) := by
  show _validate_full_resource (make_agent s none) = (true, [])
  refine _validate_full_resource_ok _ _ rfl rfl rfl ?_ rfl ?_ rfl
  · intro u hu
    fin_cases hu
    show _validate_schema_attributes (make_agent s none) coreAgentURN CORE_AGENT_SCHEMA = []
    apply _validate_schema_attributes_nil _ _ _ (by decide)
    intro a ha
    fin_cases ha <;> rfl
  · rw [_check_immutable_attributes_single]
    refine _check_immutable_for_urn_core _ _ _ rfl (by decide) ?_
    intro a ha hro
    fin_cases ha <;> first | rfl | exact absurd hro (by decide)

theorem validate_make_agentic_application_clean (s : String) :
    validate (make_agentic_application s none) "full" = (true, []) := by
  show _validate_full_resource (make_agentic_application s none) = (true, [])
  refine _validate_full_resource_ok _ _ rfl rfl rfl ?_ rfl ?_ rfl
  · intro u hu
    fin_cases hu
    show _validate_schema_attributes (make_agentic_application s none)
      coreAgenticApplicationURN CORE_AGENTIC_APPLICATION_SCHEMA = []
    apply _validate_schema_attributes_nil _ _ _ (by decide)
    intro a ha
    fin_cases ha <;> rfl
  · rw [_check_immutable_attributes_single]
    refine _check_immutable_for_urn_core _ _ _ rfl (by decide) ?_
    intro a ha hro
    fin_cases ha <;> first | rfl | exact absurd hro (by decide)

/-- C6: for every value of the per-call random hex suffix (and, for groups,
any members argument), the payloads produced by make_user, make_group,
make_agent and make_agentic_application pass full payload validation with no
errors. -/
theorem claim_C6 :
    (∀ suffix, validate (make_user suffix none) "full" = (true, [])) ∧
    (∀ suffix members, validate (make_group suffix members none) "full" = (true, [])) ∧
    (∀ suffix, validate (make_agent suffix none) "full" = (true, [])) ∧
    (∀ suffix, validate (make_agentic_application suffix none) "full" = (true, [])) :=
  ⟨validate_make_user_clean, validate_make_group_clean, validate_make_agent_clean,
   validate_make_agentic_application_clean⟩

-- ---------------------------------------------------------------------------
-- C1: which schema combinations are rejected as Invalid schema URN
-- ---------------------------------------------------------------------------

/-- The first n characters of a string, for telling error messages apart by
their heads. -/
def takeData (n : Nat) (s : String) : List Char := s.data.take n

theorem takeData_append (n : Nat) (s t : String) (h : n ≤ s.data.length) :
    takeData n (s ++ t) = takeData n s := by
  unfold takeData
  rw [data_append]
  exact List.take_append_of_le_length h

theorem le_data_append (n : Nat) (s t : String) (h : n ≤ s.data.length) :
    n ≤ (s ++ t).data.length := by
  rw [data_append, List.length_append]
  exact Nat.le_trans h (Nat.le_add_right _ _)

theorem take2_app1 (a x : String) (h : 2 ≤ a.data.length) :
    takeData 2 (a ++ x) = takeData 2 a := takeData_append 2 a x h

theorem take2_app2 (a x b : String) (h : 2 ≤ a.data.length) :
    takeData 2 ((a ++ x) ++ b) = takeData 2 a := by
  rw [take2_app1 _ _ (le_data_append _ _ _ h), take2_app1 _ _ h]

theorem take2_app4 (a x b y c : String) (h : 2 ≤ a.data.length) :
    takeData 2 ((((a ++ x) ++ b) ++ y) ++ c) = takeData 2 a := by
  rw [take2_app1 _ _ (le_data_append _ _ _ (le_data_append _ _ _ (le_data_append _ _ _ h))),
      take2_app2 _ _ _ (le_data_append _ _ _ h), take2_app1 _ _ h]

theorem mem_foldl_append {α β : Type} (f : β → List α) (l : List β) (init : List α) (e : α)
    (he : e ∈ l.foldl (fun es b => es ++ f b) init) : e ∈ init ∨ ∃ b ∈ l, e ∈ f b := by
  induction l generalizing init with
  | nil => exact Or.inl he
  | cons b rest ih =>
    simp only [List.foldl_cons] at he
    rcases ih (init ++ f b) he with hi | hrest
    · rcases List.mem_append.mp hi with h | h
      · exact Or.inl h
      · exact Or.inr ⟨b, List.mem_cons_self b rest, h⟩
    · obtain ⟨c, hc, hce⟩ := hrest
      exact Or.inr ⟨c, List.mem_cons_of_mem b hc, hce⟩

theorem vErr_message (m p : String) : (vErr m p).message = m := rfl

theorem mem_ite_singleton {α : Type} {c : Prop} [Decidable c] {x e : α}
    (h : e ∈ if c then [x] else []) : e = x := by
  split at h
  · simpa using h
  · simp at h

/-- No sub-attribute error carries the Invalid-schema-URN message: every one
starts with the two characters Mi. -/
theorem complex_attr_no_inv (value : JSON) (ad : AttrDef) (path : String) :
    ∀ e ∈ _validate_complex_attribute value ad path,
      takeData 2 e.message ≠ takeData 2 invalidSchemaURNMsg := by
  intro e he
  unfold _validate_complex_attribute at he
  cases value with
  | obj o =>
    rcases mem_foldl_append _ _ _ _ he with h | hex
    · simp at h
    · obtain ⟨sub, _, hsub⟩ := hex
      split at hsub
      · simp only [List.mem_singleton] at hsub
        rw [hsub, vErr_message, take2_app4 _ _ _ _ _ (by decide)]
        decide
      · simp at hsub
  | null => simp at he
  | bool b => simp at he
  | int n => simp at he
  | str s => simp at he
  | arr l => simp at he

theorem complex_items_no_inv (ad : AttrDef) (fp : String) :
    ∀ (items : List JSON) (idx : Nat), ∀ e ∈ _validate_complex_items ad fp items idx,
      takeData 2 e.message ≠ takeData 2 invalidSchemaURNMsg := by
  intro items
  induction items with
  | nil =>
    intro idx e he
    simp [_validate_complex_items] at he
  | cons item rest ih =>
    intro idx e he
    rw [show _validate_complex_items ad fp (item :: rest) idx
          = _validate_complex_attribute item ad (fp ++ "[" ++ toString idx ++ "]")
            ++ _validate_complex_items ad fp rest (idx + 1) from rfl] at he
    rcases List.mem_append.mp he with h | h
    · exact complex_attr_no_inv _ _ _ e h
    · exact ih (idx + 1) e h

theorem one_attr_no_inv (ext : Dict) (isExt : Bool) (urn : String) (a : AttrDef) :
    ∀ e ∈ _validate_one_attribute ext isExt urn a,
      takeData 2 e.message ≠ takeData 2 invalidSchemaURNMsg := by
  intro e he
  unfold _validate_one_attribute at he
  rcases List.mem_append.mp he with h | h
  · split at h
    · simp only [List.mem_singleton] at h
      rw [h, vErr_message, take2_app4 _ _ _ _ _ (by decide)]
      decide
    · simp at h
  · split at h
    · split at h
      · dsimp only at h
        split at h
        · split at h
          · exact complex_items_no_inv _ _ _ _ e h
          · simp only [List.mem_singleton] at h
            rw [h, vErr_message, take2_app2 _ _ _ (by decide)]
            decide
        · exact complex_attr_no_inv _ _ _ e h
      · simp at h
    · simp at h

theorem schema_attrs_no_inv (data : Dict) (urn : String) (schema : SCIMSchema) :
    ∀ e ∈ _validate_schema_attributes data urn schema,
      takeData 2 e.message ≠ takeData 2 invalidSchemaURNMsg := by
  intro e he
  unfold _validate_schema_attributes at he
  split at he
  · split at he
    · rcases mem_foldl_append _ _ _ _ he with h | hex
      · simp at h
      · obtain ⟨a, _, ha⟩ := hex
        exact one_attr_no_inv _ _ _ _ e ha
    · simp only [List.mem_singleton] at he
      rw [he, vErr_message, take2_app2 _ _ _ (by decide)]
      decide
  · rcases mem_foldl_append _ _ _ _ he with h | hex
    · simp at h
    · obtain ⟨a, _, ha⟩ := hex
      exact one_attr_no_inv _ _ _ _ e ha

theorem loop_step_no_inv (data : Dict) (urnJson : JSON) :
    ∀ e ∈ _validate_schema_loop_step data urnJson,
      takeData 2 e.message ≠ takeData 2 invalidSchemaURNMsg := by
  intro e he
  unfold _validate_schema_loop_step at he
  split at he
  · split at he
    · exact schema_attrs_no_inv _ _ _ e he
    · simp only [List.mem_singleton] at he
      rw [he, vErr_message, take2_app1 _ _ (by decide)]
      decide
  · simp only [List.mem_singleton] at he
    rw [he, vErr_message, take2_app1 _ _ (by decide)]
    decide

theorem user_specific_no_inv (data : Dict) :
    ∀ e ∈ _validate_user_specific data,
      takeData 2 e.message ≠ takeData 2 invalidSchemaURNMsg := by
  intro e he
  unfold _validate_user_specific at he
  split at he
  · simp only [List.mem_singleton] at he
    rw [he, vErr_message]
    decide
  · simp at he

theorem group_specific_no_inv (data : Dict) :
    ∀ e ∈ _validate_group_specific data,
      takeData 2 e.message ≠ takeData 2 invalidSchemaURNMsg := by
  intro e he
  unfold _validate_group_specific at he
  split at he
  · simp only [List.mem_singleton] at he
    rw [he, vErr_message]
    decide
  · simp at he

theorem agent_specific_no_inv (data : Dict) :
    ∀ e ∈ _validate_agent_specific data,
      takeData 2 e.message ≠ takeData 2 invalidSchemaURNMsg := by
  intro e he
  unfold _validate_agent_specific at he
  split at he
  · simp only [List.mem_singleton] at he
    rw [he, vErr_message]
    decide
  · split at he
    · simp only [List.mem_singleton] at he
      rw [he, vErr_message]
      decide
    · simp at he

theorem agentic_specific_no_inv (data : Dict) :
    ∀ e ∈ _validate_agentic_application_specific data,
      takeData 2 e.message ≠ takeData 2 invalidSchemaURNMsg := by
  intro e he
  unfold _validate_agentic_application_specific at he
  split at he
  · simp only [List.mem_singleton] at he
    rw [he, vErr_message]
    decide
  · split at he
    · simp only [List.mem_singleton] at he
      rw [he, vErr_message]
      decide
    · simp at he

theorem immutable_urn_no_inv (data : Dict) (urnJson : JSON) :
    ∀ e ∈ _check_immutable_for_urn data urnJson,
      takeData 2 e.message ≠ takeData 2 invalidSchemaURNMsg := by
  intro e he
  unfold _check_immutable_for_urn at he
  split at he
  · split at he
    · dsimp only at he
      rcases mem_foldl_append _ _ _ _ he with h | hex
      · simp at h
      · obtain ⟨a, _, ha⟩ := hex
        rw [mem_ite_singleton ha, vErr_message, take2_app2 _ _ _ (by decide)]
        decide
    · simp at he
  · simp at he

theorem null_no_inv (data : Dict) :
    ∀ e ∈ _check_null_semantics data,
      takeData 2 e.message ≠ takeData 2 invalidSchemaURNMsg := by
  intro e he
  unfold _check_null_semantics at he
  rcases mem_foldl_append _ _ _ _ he with h | hex
  · simp at h
  · obtain ⟨kv, _, hkv⟩ := hex
    split at hkv
    · simp only [List.mem_singleton] at hkv
      rw [hkv, vErr_message, take2_app2 _ _ _ (by decide)]
      decide
    · simp at hkv

/-- When at least one core URN is present, no error the validator goes on to
produce carries the Invalid-schema-URN message: every reachable message starts
with two characters other than In. -/
theorem full_core_no_inv (data : Dict) (l : List JSON)
    (hget : dictGet data "schemas" = some (JSON.arr l))
    (hne : l.isEmpty = false)
    (hcond : (!jsonListHasStr l coreUserURN && !jsonListHasStr l coreGroupURN
      && !jsonListHasStr l coreAgentURN && !jsonListHasStr l coreAgenticApplicationURN)
      = false) :
    ∀ e ∈ (_validate_full_resource data).2,
      takeData 2 e.message ≠ takeData 2 invalidSchemaURNMsg := by
  intro e he
  have hk : dictHasKey data "schemas" = true := dictGet_some_hasKey hget
  have hgd : dictGetD data "schemas" (JSON.arr []) = JSON.arr l := by
    unfold dictGetD; rw [hget]
  unfold _validate_full_resource at he
  rw [hk] at he
  simp only [Bool.not_true, Bool.false_eq_true, if_false] at he
  rw [hgd] at he
  dsimp only at he
  rw [hne] at he
  simp only [Bool.false_eq_true, if_false] at he
  rw [hcond] at he
  simp only [Bool.false_eq_true, if_false] at he
  rcases List.mem_append.mp he with h1 | hnull
  rcases List.mem_append.mp h1 with h2 | himm
  rcases List.mem_append.mp h2 with hloop | hspec
  · rcases mem_foldl_append _ _ _ _ hloop with h | hex
    · simp at h
    · obtain ⟨u, _, hu⟩ := hex
      exact loop_step_no_inv _ _ e hu
  · split at hspec
    · exact user_specific_no_inv _ e hspec
    · split at hspec
      · exact group_specific_no_inv _ e hspec
      · split at hspec
        · exact agent_specific_no_inv _ e hspec
        · split at hspec
          · exact agentic_specific_no_inv _ e hspec
          · simp at hspec
  · unfold _check_immutable_attributes at himm
    rcases mem_foldl_append _ _ _ _ himm with h | hex
    · simp at h
    · obtain ⟨u, _, hu⟩ := hex
      exact immutable_urn_no_inv _ _ e hu
  · exact null_no_inv _ e hnull

/-- With a core URN present, the Invalid-schema-URN message never appears
among the errors full validation reports. -/
theorem full_core_msg_ne (data : Dict) (l : List JSON)
    (hget : dictGet data "schemas" = some (JSON.arr l))
    (hne : l.isEmpty = false)
    (hcond : (!jsonListHasStr l coreUserURN && !jsonListHasStr l coreGroupURN
      && !jsonListHasStr l coreAgentURN && !jsonListHasStr l coreAgenticApplicationURN)
      = false) :
    ∀ e ∈ (validate data "full").2, e.message ≠ invalidSchemaURNMsg := by
  intro e he hmsg
  have he2 : e ∈ (_validate_full_resource data).2 := he
  exact full_core_no_inv data l hget hne hcond e he2 (congrArg (takeData 2) hmsg)

/-- A document listing two core URNs (User and Group) and the attributes both
require. -/
def userGroupDoc : Dict :=
  [("schemas", JSON.arr [JSON.str coreUserURN, JSON.str coreGroupURN]),
   ("userName", JSON.str "john.doe"),
   ("displayName", JSON.str "John Doe")]

set_option maxHeartbeats 1000000 in
/-- C1 counterexample: the claim says a document listing two or more core
URNs is reported as an invalid schema URN, yet a document whose schemas list
both the User and the Group core URN validates cleanly — full validation
returns valid with no errors at all. -/
theorem claim_C1_counterexample :
    jsonListHasStr [JSON.str coreUserURN, JSON.str coreGroupURN] coreUserURN = true ∧
    jsonListHasStr [JSON.str coreUserURN, JSON.str coreGroupURN] coreGroupURN = true ∧
    validate userGroupDoc "full" = (true, []) := by
  refine ⟨rfl, rfl, ?_⟩
  decide

set_option maxHeartbeats 1000000 in
/-- C1 (amended): for every document whose schemas member is a non-empty
array, full validation returns invalid with exactly the Invalid-schema-URN
error if and only if NONE of the four core URNs (User, Group, Agent,
AgenticApplication) is present; whenever at least one core URN is present the
Invalid-schema-URN message is never reported at all — the validator requires
at least one core URN, not exactly one — and a document listing both the User
and the Group core URN validates cleanly. -/
theorem claim_C1 :
    (∀ (data : Dict) (l : List JSON),
      dictGet data "schemas" = some (JSON.arr l) →
      l.isEmpty = false →
      (validate data "full" = (false, [vErr invalidSchemaURNMsg]) ↔
        (jsonListHasStr l coreUserURN = false ∧ jsonListHasStr l coreGroupURN = false ∧
         jsonListHasStr l coreAgentURN = false ∧
         jsonListHasStr l coreAgenticApplicationURN = false))) ∧
    (∀ (data : Dict) (l : List JSON),
      dictGet data "schemas" = some (JSON.arr l) →
      l.isEmpty = false →
      (jsonListHasStr l coreUserURN = true ∨ jsonListHasStr l coreGroupURN = true ∨
       jsonListHasStr l coreAgentURN = true ∨ jsonListHasStr l coreAgenticApplicationURN = true) →
      ∀ e ∈ (validate data "full").2, e.message ≠ invalidSchemaURNMsg) ∧
    validate userGroupDoc "full" = (true, []) := by
  refine ⟨?_, ?_, by decide⟩
  · intro data l hget hne
    constructor
    · intro hval
      cases hc : (!jsonListHasStr l coreUserURN && !jsonListHasStr l coreGroupURN
          && !jsonListHasStr l coreAgentURN && !jsonListHasStr l coreAgenticApplicationURN) with
      | true =>
        have h1 : jsonListHasStr l coreUserURN = false := by
          revert hc; cases jsonListHasStr l coreUserURN <;> simp
        have h2 : jsonListHasStr l coreGroupURN = false := by
          revert hc; cases jsonListHasStr l coreGroupURN <;> simp
        have h3 : jsonListHasStr l coreAgentURN = false := by
          revert hc; cases jsonListHasStr l coreAgentURN <;> simp
        have h4 : jsonListHasStr l coreAgenticApplicationURN = false := by
          revert hc; cases jsonListHasStr l coreAgenticApplicationURN <;> simp
        exact ⟨h1, h2, h3, h4⟩
      | false =>
        exfalso
        have hmem : vErr invalidSchemaURNMsg ∈ (validate data "full").2 := by
          rw [hval]
          exact List.mem_singleton.mpr rfl
        exact full_core_msg_ne data l hget hne hc _ hmem rfl
    · intro h
      obtain ⟨h1, h2, h3, h4⟩ := h
      show _validate_full_resource data = _
      exact _validate_full_resource_no_core data l hget hne h1 h2 h3 h4
  · intro data l hget hne hcore e he
    have hc : (!jsonListHasStr l coreUserURN && !jsonListHasStr l coreGroupURN
        && !jsonListHasStr l coreAgentURN && !jsonListHasStr l coreAgenticApplicationURN)
        = false := by
      rcases hcore with h | h | h | h <;> simp [h]
    exact full_core_msg_ne data l hget hne hc e he

/-- C1 witness: a document whose only schema URN is unknown is rejected with
exactly the Invalid-schema-URN error, while the two-core-URN document never
sees that message, both read off the claim at concrete inputs. -/
theorem claim_C1_witness :
    validate [("schemas", JSON.arr [JSON.str "urn:example:params:unknown"])] "full"
      = (false, [vErr invalidSchemaURNMsg]) ∧
    ∀ e ∈ (validate userGroupDoc "full").2, e.message ≠ invalidSchemaURNMsg :=
  ⟨(claim_C1.1 [("schemas", JSON.arr [JSON.str "urn:example:params:unknown"])]
      [JSON.str "urn:example:params:unknown"] rfl rfl).mpr ⟨rfl, rfl, rfl, rfl⟩,
   claim_C1.2.1 userGroupDoc [JSON.str coreUserURN, JSON.str coreGroupURN] rfl rfl
     (Or.inl rfl)⟩

-- ---------------------------------------------------------------------------
-- C3: duplicate PATCH paths
-- ---------------------------------------------------------------------------

theorem patch_step_seen_mono (op : JSON) (st : Nat × List JSON × List ValidationError)
    (x : JSON) (hx : setHas st.2.1 x = true) :
    setHas (_validate_patch_op_step st op).2.1 x = true := by
  cases op with
  | obj o =>
    unfold _validate_patch_op_step
    by_cases hop : pyTruthy (dictGetPy o "op") = true
    · simp only [hop, Bool.not_true, Bool.false_eq_true, if_false]
      cases hpath : dictGetPy o "path" with
      | none => exact hx
      | some pv =>
        by_cases htr : pyTruthy (some pv) = true
        · simp only [htr, if_true]
          simp only [setHas, List.any_cons] at hx ⊢
          rw [hx, Bool.or_true]
        · simp only [htr, Bool.false_eq_true, if_false]
          exact hx
    · rw [Bool.not_eq_true] at hop
      simp only [hop, Bool.not_false, if_true]
      exact hx
  | null => exact hx
  | bool b => exact hx
  | int n => exact hx
  | str s => exact hx
  | arr l => exact hx

theorem patch_step_err_mono (op : JSON) (st : Nat × List JSON × List ValidationError)
    (e : ValidationError) (he : e ∈ st.2.2) :
    e ∈ (_validate_patch_op_step st op).2.2 := by
  cases op with
  | obj o =>
    unfold _validate_patch_op_step
    by_cases hop : pyTruthy (dictGetPy o "op") = true
    · simp only [hop, Bool.not_true, Bool.false_eq_true, if_false]
      cases hpath : dictGetPy o "path" with
      | none =>
        exact List.mem_append.mpr (Or.inl (List.mem_append.mpr (Or.inl he)))
      | some pv =>
        by_cases htr : pyTruthy (some pv) = true
        · simp only [htr, if_true]
          exact List.mem_append.mpr
            (Or.inl (List.mem_append.mpr (Or.inl (List.mem_append.mpr (Or.inl he)))))
        · simp only [htr, Bool.false_eq_true, if_false]
          exact List.mem_append.mpr (Or.inl (List.mem_append.mpr (Or.inl he)))
    · rw [Bool.not_eq_true] at hop
      simp only [hop, Bool.not_false, if_true]
      exact List.mem_append.mpr (Or.inl he)
  | null => exact List.mem_append.mpr (Or.inl he)
  | bool b => exact List.mem_append.mpr (Or.inl he)
  | int n => exact List.mem_append.mpr (Or.inl he)
  | str s => exact List.mem_append.mpr (Or.inl he)
  | arr l => exact List.mem_append.mpr (Or.inl he)

theorem patch_fold_seen_mono (l : List JSON) :
    ∀ (st : Nat × List JSON × List ValidationError) (x : JSON),
      setHas st.2.1 x = true →
      setHas (l.foldl _validate_patch_op_step st).2.1 x = true := by
  induction l with
  | nil => intro st x hx; exact hx
  | cons op rest ih =>
    intro st x hx
    simp only [List.foldl_cons]
    exact ih _ x (patch_step_seen_mono op st x hx)

theorem patch_fold_err_mono (l : List JSON) :
    ∀ (st : Nat × List JSON × List ValidationError) (e : ValidationError),
      e ∈ st.2.2 → e ∈ (l.foldl _validate_patch_op_step st).2.2 := by
  induction l with
  | nil => intro st e he; exact he
  | cons op rest ih =>
    intro st e he
    simp only [List.foldl_cons]
    exact ih _ e (patch_step_err_mono op st e he)

theorem patch_step_adds_path (o : Dict) (st : Nat × List JSON × List ValidationError)
    (p : String) (hop : pyTruthy (dictGetPy o "op") = true)
    (hpath : dictGetPy o "path" = some (JSON.str p)) (hp : p ≠ "") :
    setHas (_validate_patch_op_step st (JSON.obj o)).2.1 (JSON.str p) = true := by
  have htr : pyTruthy (some (JSON.str p)) = true := by simp [pyTruthy, hp]
  unfold _validate_patch_op_step
  simp only [hop, Bool.not_true, Bool.false_eq_true, if_false]
  rw [hpath]
  dsimp only
  simp only [htr, if_true]
  show setHas (JSON.str p :: st.2.1) (JSON.str p) = true
  simp only [setHas, List.any_cons]
  have hb : jsonBeq (JSON.str p) (JSON.str p) = true := by simp [jsonBeq]
  rw [hb, Bool.true_or]

theorem patch_step_emits_duplicate (o : Dict) (st : Nat × List JSON × List ValidationError)
    (p : String) (hop : pyTruthy (dictGetPy o "op") = true)
    (hpath : dictGetPy o "path" = some (JSON.str p)) (hp : p ≠ "")
    (hseen : setHas st.2.1 (JSON.str p) = true) :
    ∃ e ∈ (_validate_patch_op_step st (JSON.obj o)).2.2,
      ∃ a b, e.message = a ++ ("duplicate" ++ b) := by
  have htr : pyTruthy (some (JSON.str p)) = true := by simp [pyTruthy, hp]
  unfold _validate_patch_op_step
  simp only [hop, Bool.not_true, Bool.false_eq_true, if_false]
  rw [hpath]
  dsimp only
  simp only [htr, if_true, hseen]
  refine ⟨vErr (("Operation " ++ toString st.1 ++ ": ") ++
    ("duplicate" ++ (" path \x27" ++ pyStr (JSON.str p) ++ "\x27 in PATCH operations"))), ?_,
    _, _, rfl⟩
  exact List.mem_append.mpr (Or.inl (List.mem_append.mpr (Or.inr (by simp))))

theorem mem_isEmpty_false {α : Type} (l : List α) (e : α) (he : e ∈ l) :
    l.isEmpty = false := by
  cases l with
  | nil => simp at he
  | cons a t => rfl

theorem _validate_patch_result (data : Dict) (schVal : JSON) (ops : List JSON)
    (hsch : dictGet data "schemas" = some schVal)
    (hops : dictGet data "Operations" = some (JSON.arr ops))
    (hne : ops.isEmpty = false) :
    _validate_patch data
      = (((if !schemasHasPatchOp schVal then [vErr patchSchemaMissingMsg] else [])
          ++ _validate_patch_operations ops).isEmpty,
         (if !schemasHasPatchOp schVal then [vErr patchSchemaMissingMsg] else [])
          ++ _validate_patch_operations ops) := by
  have hk : dictHasKey data "schemas" = true := dictGet_some_hasKey hsch
  have hko : dictHasKey data "Operations" = true := dictGet_some_hasKey hops
  have hgd : dictGetD data "schemas" (JSON.arr []) = schVal := by
    unfold dictGetD; rw [hsch]
  have hgo : dictGetD data "Operations" (JSON.arr []) = JSON.arr ops := by
    unfold dictGetD; rw [hops]
  unfold _validate_patch
  rw [hk, hgd, hko, hgo]
  simp only [Bool.not_true, Bool.false_eq_true, if_false]
  rw [hne]
  simp only [Bool.false_eq_true, if_false]

/-- A PatchOp document consisting of two replace operations that share the
empty path string. -/
def emptyPathPatch : Dict :=
  make_patch
    [JSON.obj [("op", JSON.str "replace"), ("path", JSON.str ""), ("value", JSON.str "A")],
     JSON.obj [("op", JSON.str "replace"), ("path", JSON.str ""), ("value", JSON.str "B")]]

set_option maxHeartbeats 400000 in
/-- C3 counterexample: the claim says any two operations with an identical
path string — including the empty string — are rejected with a duplicate
error, yet a PatchOp whose two replace operations both carry path "" is
accepted as fully valid: the `if path:` guard ignores falsy (empty) path
strings. -/
theorem claim_C3_counterexample : validate emptyPathPatch "patch" = (true, []) := by
  decide

set_option maxHeartbeats 400000 in
/-- C3 (amended): duplicate-path detection fires only for truthy paths.  For
every PatchOp document whose schemas member is an array, if two operations —
each an object carrying a truthy op value — share an identical NON-EMPTY path
string, validation returns invalid with an error whose message mentions
"duplicate".  Duplicate empty-string paths are not flagged: a document whose
two replace operations both use path "" validates as valid. -/
theorem claim_C3 :
    (∀ (data : Dict) (sch : List JSON) (pre mid post : List JSON) (oi oj : Dict) (p : String),
      dictGet data "schemas" = some (JSON.arr sch) →
      dictGet data "Operations"
        = some (JSON.arr (pre ++ JSON.obj oi :: (mid ++ JSON.obj oj :: post))) →
      pyTruthy (dictGetPy oi "op") = true →
      dictGetPy oi "path" = some (JSON.str p) →
      pyTruthy (dictGetPy oj "op") = true →
      dictGetPy oj "path" = some (JSON.str p) →
      p ≠ "" →
      (validate data "patch").1 = false ∧
      ∃ e ∈ (validate data "patch").2, ∃ a b, e.message = a ++ ("duplicate" ++ b)) ∧
    validate emptyPathPatch "patch" = (true, []) := by
  constructor
  · intro data sch pre mid post oi oj p hsch hops hopi hpathi hopj hpathj hp
    have hval : validate data "patch" = _validate_patch data := rfl
    have hne : (pre ++ JSON.obj oi :: (mid ++ JSON.obj oj :: post)).isEmpty = false := by
      cases pre <;> rfl
    have hres := _validate_patch_result data (JSON.arr sch) _ hsch hops hne
    -- locate the duplicate error inside the operations fold
    have key : ∃ e ∈ _validate_patch_operations
        (pre ++ JSON.obj oi :: (mid ++ JSON.obj oj :: post)),
        ∃ a b, e.message = a ++ ("duplicate" ++ b) := by
      unfold _validate_patch_operations
      rw [List.foldl_append, List.foldl_cons, List.foldl_append, List.foldl_cons]
      set st1 := pre.foldl _validate_patch_op_step (0, [], []) with hst1
      set st2 := _validate_patch_op_step st1 (JSON.obj oi) with hst2
      set st3 := mid.foldl _validate_patch_op_step st2 with hst3
      have h2 : setHas st2.2.1 (JSON.str p) = true :=
        patch_step_adds_path oi st1 p hopi hpathi hp
      have h3 : setHas st3.2.1 (JSON.str p) = true :=
        patch_fold_seen_mono mid st2 (JSON.str p) h2
      obtain ⟨e, he, a, b, hmsg⟩ :=
        patch_step_emits_duplicate oj st3 p hopj hpathj hp h3
      refine ⟨e, ?_, a, b, hmsg⟩
      exact patch_fold_err_mono post _ e he
    obtain ⟨e, he, a, b, hmsg⟩ := key
    have hmem : e ∈ ((if !schemasHasPatchOp (JSON.arr sch) then [vErr patchSchemaMissingMsg]
        else []) ++ _validate_patch_operations (pre ++ JSON.obj oi :: (mid ++ JSON.obj oj :: post))) :=
      List.mem_append.mpr (Or.inr he)
    constructor
    · rw [hval, hres]
      simp only
      rw [mem_isEmpty_false _ e hmem]
    · rw [hval, hres]
      exact ⟨e, hmem, a, b, hmsg⟩
  · decide

/-- C3 witness: a concrete PatchOp with two replace operations on
displayName is rejected with a duplicate-path error. -/
theorem claim_C3_witness :
    (validate (make_patch
      [JSON.obj [("op", JSON.str "replace"), ("path", JSON.str "displayName"),
                 ("value", JSON.str "A")],
       JSON.obj [("op", JSON.str "replace"), ("path", JSON.str "displayName"),
                 ("value", JSON.str "B")]]) "patch").1 = false :=
  (claim_C3.1 (make_patch
      [JSON.obj [("op", JSON.str "replace"), ("path", JSON.str "displayName"),
                 ("value", JSON.str "A")],
       JSON.obj [("op", JSON.str "replace"), ("path", JSON.str "displayName"),
                 ("value", JSON.str "B")]])
    [JSON.str patchOpURN] [] [] []
    [("op", JSON.str "replace"), ("path", JSON.str "displayName"), ("value", JSON.str "A")]
    [("op", JSON.str "replace"), ("path", JSON.str "displayName"), ("value", JSON.str "B")]
    "displayName" rfl rfl rfl rfl rfl rfl (by decide)).1

-- ---------------------------------------------------------------------------
-- C4 theorems
-- ---------------------------------------------------------------------------

set_option maxHeartbeats 400000 in
/-- C4 counterexample: the claim says the sleep before a retry equals the
Retry-After value parsed as integer seconds, defaulting to 2 seconds when the
header is not parseable as integer seconds.  A Retry-After of "1.5" is not an
integer, yet the code sleeps exactly 1.5 seconds (float parsing), not 2. -/
theorem claim_C4_counterexample :
    (_request throttledOnceFractional).2 = [mkRat 3 2] ∧
    mkRat 3 2 ≠ (2 : ℚ) ∧
    (_request throttledOnceFractional).1.status_code = 200 := by
  refine ⟨by decide, by decide, by decide⟩

/-- C4 (amended): _request retries a 429 response at most 3 times (at most 4
attempts), returning the final response — including a final 429 once the cap
is exhausted — rather than raising; before each retry it sleeps for the
Retry-After header value parsed as a decimal number (Python float) with a
floor of 1 second, defaulting to 2 seconds when the header is absent, empty
or unparseable; a fractional header such as "1.5" therefore sleeps 1.5
seconds, not the 2-second default the original claim predicts. -/
theorem claim_C4 :
    (∀ (responses : Nat → SCIMResponse),
      ∃ k, k ≤ _MAX_RETRIES ∧
        (∀ i, i < k → (responses i).status_code = 429) ∧
        ((responses k).status_code ≠ 429 ∨ k = _MAX_RETRIES) ∧
        _request responses
          = (responses k,
             (List.range k).map fun i =>
               _parse_retry_after ((responses i).header "Retry-After"))) ∧
    _parse_retry_after none = 2 ∧
    _parse_retry_after (some "") = 2 ∧
    _parse_retry_after (some "abc") = 2 ∧
    _parse_retry_after (some "0") = 1 ∧
    _parse_retry_after (some "7") = 7 ∧
    _parse_retry_after (some "1.5") = mkRat 3 2 := by
  refine ⟨?_, rfl, rfl, rfl, by decide, by decide, by decide⟩
  intro responses
  by_cases h0 : (responses 0).status_code = 429
  · by_cases h1 : (responses 1).status_code = 429
    · by_cases h2 : (responses 2).status_code = 429
      · refine ⟨3, Nat.le_refl _, ?_, Or.inr rfl, ?_⟩
        · intro i hi
          interval_cases i <;> assumption
        · show _request_loop responses 3 0 [] = _
          simp [_request_loop, h0, h1, h2, List.range_succ]
      · refine ⟨2, by decide, ?_, Or.inl h2, ?_⟩
        · intro i hi
          interval_cases i <;> assumption
        · show _request_loop responses 3 0 [] = _
          simp [_request_loop, h0, h1, h2, List.range_succ]
    · refine ⟨1, by decide, ?_, Or.inl h1, ?_⟩
      · intro i hi
        interval_cases i
        exact h0
      · show _request_loop responses 3 0 [] = _
        simp [_request_loop, h0, h1, List.range_succ]
  · refine ⟨0, by decide, ?_, Or.inl h0, ?_⟩
    · intro i hi
      exact absurd hi (Nat.not_lt_zero i)
    · show _request_loop responses 3 0 [] = _
      simp [_request_loop, h0]

/-- C4 witness: a server that always answers 429 exhausts the cap — four
attempts, three default 2-second sleeps — and the final 429 is returned. -/
theorem claim_C4_witness :
    _request (fun _ => ⟨429, [], ""⟩) = (⟨429, [], ""⟩, [2, 2, 2]) := by
  obtain ⟨k, hk, hall, hlast, heq⟩ := claim_C4.1 (fun _ => (⟨429, [], ""⟩ : SCIMResponse))
  rcases hlast with hne | h3
  · exact absurd rfl hne
  · rw [h3] at heq
    rw [heq]
    decide

-- ---------------------------------------------------------------------------
-- C2: ok is exactly the absence of FAIL-severity errors
-- ---------------------------------------------------------------------------

theorem _is_valid_iff (es : List ServerValidationError) :
    _is_valid es = true ↔ ∀ e ∈ es, e.severity ≠ FAIL := by
  simp only [_is_valid, Bool.not_eq_true', List.any_eq_false, beq_iff_eq]

theorem false_append_iff (es : List ServerValidationError) (m p : String) :
    ((false : Bool) = true ↔ ∀ er ∈ es ++ [svErr m p], er.severity ≠ FAIL) := by
  constructor
  · intro h
    exact absurd h (by simp)
  · intro hall
    exact absurd rfl (hall (svErr m p) (by simp))

theorem resource_ok_iff (strict : Bool) (data : Option Dict) (expected actual : Nat)
    (hdrs : Option (List (String × String))) (rt : Option String) :
    ((validate_resource_response strict data expected actual hdrs rt).1 = true ↔
      ∀ er ∈ (validate_resource_response strict data expected actual hdrs rt).2,
        er.severity ≠ FAIL) := by
  unfold validate_resource_response
  repeat
    first
    | exact _is_valid_iff _
    | exact false_append_iff _ _ _
    | split
    | dsimp only

theorem list_ok_iff (strict : Bool) (data : Option Dict) (actual : Nat)
    (hdrs : Option (List (String × String))) :
    ((validate_list_response strict data actual hdrs).1 = true ↔
      ∀ er ∈ (validate_list_response strict data actual hdrs).2,
        er.severity ≠ FAIL) := by
  unfold validate_list_response
  repeat
    first
    | exact _is_valid_iff _
    | exact false_append_iff _ _ _
    | split
    | dsimp only

theorem error_ok_iff (strict : Bool) (data : Option Dict) (expected actual : Nat) :
    ((validate_error_response strict data expected actual).1 = true ↔
      ∀ er ∈ (validate_error_response strict data expected actual).2,
        er.severity ≠ FAIL) := by
  unfold validate_error_response
  repeat
    first
    | exact _is_valid_iff _
    | exact false_append_iff _ _ _
    | split
    | dsimp only

theorem delete_ok_iff (strict : Bool) (actual : Nat) (body : String) :
    ((validate_delete_response strict actual body).1 = true ↔
      ∀ er ∈ (validate_delete_response strict actual body).2,
        er.severity ≠ FAIL) := by
  unfold validate_delete_response
  repeat
    first
    | exact _is_valid_iff _
    | exact false_append_iff _ _ _
    | split
    | dsimp only

/-- C2: for every entry point of ServerResponseValidator, in both strict and
compat modes and for every input, the returned ok flag is true exactly when
the returned error list contains no FAIL-severity error; WARN-severity
errors never make ok false, a FAIL-severity error always does. -/
theorem claim_C2 :
    (∀ strict data expected actual hdrs rt,
      ((validate_resource_response strict data expected actual hdrs rt).1 = true ↔
        ∀ er ∈ (validate_resource_response strict data expected actual hdrs rt).2,
          er.severity ≠ FAIL)) ∧
    (∀ strict data actual hdrs,
      ((validate_list_response strict data actual hdrs).1 = true ↔
        ∀ er ∈ (validate_list_response strict data actual hdrs).2,
          er.severity ≠ FAIL)) ∧
    (∀ strict data expected actual,
      ((validate_error_response strict data expected actual).1 = true ↔
        ∀ er ∈ (validate_error_response strict data expected actual).2,
          er.severity ≠ FAIL)) ∧
    (∀ strict actual body,
      ((validate_delete_response strict actual body).1 = true ↔
        ∀ er ∈ (validate_delete_response strict actual body).2,
          er.severity ≠ FAIL)) :=
  ⟨resource_ok_iff, list_ok_iff, error_ok_iff, delete_ok_iff⟩

/-- C2 witness: a compat-mode DELETE response with a 204 status and a body —
which yields only a WARN-severity finding — is still reported ok, and a
wrong-status DELETE is not. -/
theorem claim_C2_witness :
    (validate_delete_response false 204 "x").1 = true ∧
    ¬((validate_delete_response false 500 "").1 = true) :=
  ⟨(claim_C2.2.2.2 false 204 "x").mpr (by decide),
   fun h => by
    have := (claim_C2.2.2.2 false 500 "").mp h
    exact absurd rfl (this (svErr "Expected HTTP 204 for DELETE, got 500 (RFC 7644 §3.6)")
      (by decide))⟩

-- ---------------------------------------------------------------------------
-- C5: Content-Type handling of validate_resource_response
-- ---------------------------------------------------------------------------

/-- A server response body that satisfies every check of
validate_resource_response other than the Content-Type one. -/
def goodUserResponse : Dict :=
  [("schemas", JSON.arr [JSON.str coreUserURN]),
   ("id", JSON.str "2819c223"),
   ("userName", JSON.str "jdoe"),
   ("meta", JSON.obj [("resourceType", JSON.str "User"),
                      ("created", JSON.str "2024-01-01T00:00:00Z"),
                      ("lastModified", JSON.str "2024-01-01T00:00:00Z")])]

theorem content_type_errors_cases (strict : Bool) (ct : String) :
    _content_type_errors strict (some [("Content-Type", ct)])
      = (if ct = "" then []
         else if strContains ct "application/scim+json" then []
         else if strContains ct "application/json" then
           [svErr ("Content-Type should be application/scim+json, got \x27" ++ ct
                   ++ "\x27 (RFC 7644 §8.1)") "" (_sev strict true)]
         else
           [svErr ("Content-Type should be application/scim+json, got \x27" ++ ct
                   ++ "\x27 (RFC 7644 §8.1)")]) := rfl

set_option maxHeartbeats 1000000 in
theorem resource_response_ct (strict : Bool) (ct : String) :
    validate_resource_response strict (some goodUserResponse) 200 200
        (some [("Content-Type", ct)]) none
      = (_is_valid (_content_type_errors strict (some [("Content-Type", ct)])),
         _content_type_errors strict (some [("Content-Type", ct)])) := by
  unfold validate_resource_response
  dsimp only
  rw [if_neg (by decide : ¬((200 : Nat) ≠ 200 ∧ 400 ≤ (200 : Nat)))]
  rw [show dictGet goodUserResponse "schemas" = some (JSON.arr [JSON.str coreUserURN]) from rfl]
  dsimp only
  rw [if_neg (by decide : ¬((200 : Nat) ≠ 200))]
  rw [if_neg (by decide : ¬((!dictHasKey goodUserResponse "id") = true))]
  rw [show dictGetPy goodUserResponse "meta"
      = some (JSON.obj [("resourceType", JSON.str "User"),
                        ("created", JSON.str "2024-01-01T00:00:00Z"),
                        ("lastModified", JSON.str "2024-01-01T00:00:00Z")]) from rfl]
  dsimp only
  rw [show metaFieldErrors [("resourceType", JSON.str "User"),
        ("created", JSON.str "2024-01-01T00:00:00Z"),
        ("lastModified", JSON.str "2024-01-01T00:00:00Z")] = [] from rfl]
  rw [show metaVersionTypeErrors [("resourceType", JSON.str "User"),
        ("created", JSON.str "2024-01-01T00:00:00Z"),
        ("lastModified", JSON.str "2024-01-01T00:00:00Z")] = [] from rfl]
  rw [show _etag_errors strict (some [("Content-Type", ct)])
      (some (JSON.obj [("resourceType", JSON.str "User"),
                       ("created", JSON.str "2024-01-01T00:00:00Z"),
                       ("lastModified", JSON.str "2024-01-01T00:00:00Z")])) = [] from rfl]
  rw [show _location_errors strict 200 (some [("Content-Type", ct)])
      (some (JSON.obj [("resourceType", JSON.str "User"),
                       ("created", JSON.str "2024-01-01T00:00:00Z"),
                       ("lastModified", JSON.str "2024-01-01T00:00:00Z")])) = [] from rfl]
  rw [show _check_write_only goodUserResponse [JSON.str coreUserURN] = [] from rfl]
  simp only [List.nil_append, List.append_nil]

set_option maxHeartbeats 1000000 in
/-- C5 counterexample: the claim says every Content-Type value other than
exactly application/scim+json (or the strict-only application/json) produces
a FAIL-severity error in both modes, naming
application/scim+json; charset=utf-8 as an example — yet that value produces
no error at all in either mode, because the code tests substring containment
rather than equality. -/
theorem claim_C5_counterexample :
    validate_resource_response true (some goodUserResponse) 200 200
      (some [("Content-Type", "application/scim+json; charset=utf-8")]) none = (true, []) ∧
    validate_resource_response false (some goodUserResponse) 200 200
      (some [("Content-Type", "application/scim+json; charset=utf-8")]) none = (true, []) :=
  ⟨by decide, by decide⟩

/-- C5 (amended): for a response passing every other check, a truthy
Content-Type value CONTAINING application/scim+json as a substring (for
example with a charset parameter) produces no content-type error; otherwise
one containing application/json produces a strict-only deviation (FAIL in
strict mode, WARN in compat); any other truthy value produces a
FAIL-severity error in both modes; an empty header value is skipped. -/
theorem claim_C5 (strict : Bool) (ct : String) :
    validate_resource_response strict (some goodUserResponse) 200 200
        (some [("Content-Type", ct)]) none
      = (if ct = "" then ((true : Bool), ([] : List ServerValidationError))
         else if strContains ct "application/scim+json" then (true, [])
         else if strContains ct "application/json" then
           (if strict then
             (false, [svErr ("Content-Type should be application/scim+json, got \x27" ++ ct
                             ++ "\x27 (RFC 7644 §8.1)") "" FAIL])
            else
             (true, [svErr ("Content-Type should be application/scim+json, got \x27" ++ ct
                            ++ "\x27 (RFC 7644 §8.1)") "" WARN]))
         else
           (false, [svErr ("Content-Type should be application/scim+json, got \x27" ++ ct
                           ++ "\x27 (RFC 7644 §8.1)") "" FAIL])) := by
  rw [resource_response_ct strict ct, content_type_errors_cases]
  by_cases h0 : ct = ""
  · simp [h0, _is_valid]
  · by_cases h1 : strContains ct "application/scim+json" = true
    · simp [h0, h1, _is_valid]
    · by_cases h2 : strContains ct "application/json" = true
      · cases strict <;>
          simp [h0, h1, h2, _is_valid, _sev, svErr, FAIL, WARN]
      · simp [h0, h1, h2, _is_valid, _sev, svErr, FAIL]

-- ---------------------------------------------------------------------------
-- C10: JSON booleans pass validate_list_response integer checks
-- ---------------------------------------------------------------------------

theorem append_data_ne_nil (a x : String) (h : a.data ≠ []) : (a ++ x).data ≠ [] := by
  rw [data_append]
  intro hc
  exact h (List.append_eq_nil.mp hc).1

theorem firstChar_append2 (a x b : String) (h : a.data ≠ []) :
    firstChar ((a ++ x) ++ b) = firstChar a := by
  rw [firstChar_append _ _ (append_data_ne_nil a x h), firstChar_append a x h]

theorem ne_lit_of_firstChar (a x b t : String) (ha : a.data ≠ [])
    (h : firstChar a ≠ firstChar t) : (a ++ x) ++ b ≠ t := by
  apply ne_of_firstChar_ne
  rw [firstChar_append2 a x b ha]
  exact h

theorem ne_of_firstChar2 (a x b c y d : String) (ha : a.data ≠ []) (hc : c.data ≠ [])
    (h : firstChar a ≠ firstChar c) : (a ++ x) ++ b ≠ (c ++ y) ++ d := by
  apply ne_of_firstChar_ne
  rw [firstChar_append2 a x b ha, firstChar_append2 c y d hc]
  exact h

theorem dictGet_none_hasKey {d : Dict} {k : String} (h : dictGet d k = none) :
    dictHasKey d k = false := by
  induction d with
  | nil => rfl
  | cons p rest ih =>
    by_cases hk : p.1 = k
    · simp [dictGet, hk] at h
    · simp only [dictGet, hk, if_false] at h
      simp [dictHasKey, hk, ih h]

theorem content_type_message_shape (strict : Bool) (hdrs : Option (List (String × String)))
    (e : ServerValidationError) (he : e ∈ _content_type_errors strict hdrs) :
    ∃ ct, e.message
      = ("Content-Type should be application/scim+json, got \x27" ++ ct)
        ++ "\x27 (RFC 7644 §8.1)" := by
  unfold _content_type_errors at he
  cases hdrs with
  | none => simp at he
  | some hs =>
    dsimp only at he
    by_cases hemp : hs.isEmpty = true
    · rw [if_pos hemp] at he; simp at he
    · rw [if_neg hemp] at he
      cases hv : _header_value hs "Content-Type" with
      | none => rw [hv] at he; simp at he
      | some ct =>
        rw [hv] at he
        dsimp only at he
        by_cases h0 : ct = ""
        · rw [if_pos h0] at he; simp at he
        · rw [if_neg h0] at he
          by_cases h1 : strContains ct "application/scim+json" = true
          · rw [if_pos h1] at he; simp at he
          · rw [if_neg h1] at he
            by_cases h2 : strContains ct "application/json" = true
            · rw [if_pos h2] at he
              simp only [List.mem_singleton] at he
              exact ⟨ct, by rw [he]; rfl⟩
            · rw [if_neg h2] at he
              simp only [List.mem_singleton] at he
              exact ⟨ct, by rw [he]; rfl⟩

/-- The ListResponse body of the C10 instance: every counted field holds a
JSON boolean. -/
def listBoolDoc : Dict :=
  [("schemas", JSON.arr [JSON.str listResponseURN]),
   ("totalResults", JSON.bool true),
   ("startIndex", JSON.bool false),
   ("itemsPerPage", JSON.bool true)]

set_option maxHeartbeats 1000000 in
/-- C10: a Python bool is an instance of int, so validate_list_response
accepts JSON booleans wherever it requires integers: whenever totalResults
holds a JSON boolean (and startIndex/itemsPerPage, when present, do too), no
"must be an integer" error of any severity is reported in either mode; a body
carrying booleans in all three fields validates with no errors at all. -/
theorem claim_C10 :
    (∀ b, pyIsInt (JSON.bool b) = true) ∧
    (∀ (strict : Bool) (d : Dict) (actual : Nat) (hdrs : Option (List (String × String)))
       (bT : Bool),
      dictGet d "totalResults" = some (JSON.bool bT) →
      (∀ j, dictGet d "startIndex" = some j → ∃ b, j = JSON.bool b) →
      (∀ j, dictGet d "itemsPerPage" = some j → ∃ b, j = JSON.bool b) →
      ∀ e ∈ (validate_list_response strict (some d) actual hdrs).2,
        (∀ tn, e.message ≠ ("totalResults must be an integer, got " ++ tn)
                ++ " (RFC 7644 §3.4.2)") ∧
        e.message ≠ "\x27startIndex\x27 must be an integer" ∧
        e.message ≠ "\x27itemsPerPage\x27 must be an integer") ∧
    (∀ strict, validate_list_response strict (some listBoolDoc) 200 none = (true, [])) := by
  refine ⟨fun b => rfl, ?_, fun strict => by cases strict <;> decide⟩
  intro strict d actual hdrs bT hT hSI hIP e he
  unfold validate_list_response at he
  dsimp only at he
  -- the pagination fold expands over the two concrete field names
  simp only [List.foldl_cons, List.foldl_nil, List.nil_append] at he
  -- split membership across the six appended segments
  rcases List.mem_append.mp he with he1 | heP
  rcases List.mem_append.mp he1 with he2 | heR
  rcases List.mem_append.mp he2 with he3 | heT
  rcases List.mem_append.mp he3 with he4 | heS
  rcases List.mem_append.mp he4 with heStat | heCT
  · -- status segment
    have hmsg : e.message = ("Expected HTTP 200 for list, got " ++ toString actual)
        ++ " (RFC 7644 §3.4.2)" := by
      by_cases hst : actual ≠ 200
      · rw [if_pos hst] at heStat
        simp only [List.mem_singleton] at heStat
        rw [heStat]
        rfl
      · rw [if_neg hst] at heStat
        simp at heStat
    rw [hmsg]
    refine ⟨fun tn => ?_, ?_, ?_⟩
    · exact ne_of_firstChar2 _ _ _ _ _ _ (by decide) (by decide) (by decide)
    · exact ne_lit_of_firstChar _ _ _ _ (by decide) (by decide)
    · exact ne_lit_of_firstChar _ _ _ _ (by decide) (by decide)
  · -- content-type segment
    obtain ⟨ct, hmsg⟩ := content_type_message_shape strict hdrs e heCT
    rw [hmsg]
    refine ⟨fun tn => ?_, ?_, ?_⟩
    · exact ne_of_firstChar2 _ _ _ _ _ _ (by decide) (by decide) (by decide)
    · exact ne_lit_of_firstChar _ _ _ _ (by decide) (by decide)
    · exact ne_lit_of_firstChar _ _ _ _ (by decide) (by decide)
  · -- ListResponse schema segment
    have hmsg : e.message
        = "ListResponse must include schema \x27urn:ietf:params:scim:api:messages:2.0:ListResponse\x27 (RFC 7644 §3.4.2)" := by
      by_cases hs : (!schemasHasListResponse (dictGetD d "schemas" (JSON.arr []))) = true
      · rw [if_pos hs] at heS
        simp only [List.mem_singleton] at heS
        rw [heS]
        rfl
      · rw [if_neg hs] at heS
        simp at heS
    rw [hmsg]
    refine ⟨fun tn => ?_, by decide, by decide⟩
    intro hc
    have := congrArg firstChar hc
    rw [firstChar_append2 _ _ _ (by decide)] at this
    exact absurd this (by decide)
  · -- totalResults segment: empty, since the bool value is an int instance
    rw [dictGet_some_hasKey hT] at heT
    rw [hT] at heT
    simp [pyIsInt] at heT
  · -- Resources segment
    have hmsg : e.message = "\x27Resources\x27 must be an array" := by
      by_cases hk : dictHasKey d "Resources" = true
      · rw [if_pos hk] at heR
        cases hg : dictGet d "Resources" with
        | none =>
          rw [hg] at heR
          simp only [List.mem_singleton] at heR
          rw [heR]
          rfl
        | some v =>
          rw [hg] at heR
          cases v with
          | arr l => simp at heR
          | null => simp only [List.mem_singleton] at heR; rw [heR]; rfl
          | bool b => simp only [List.mem_singleton] at heR; rw [heR]; rfl
          | int n => simp only [List.mem_singleton] at heR; rw [heR]; rfl
          | str s => simp only [List.mem_singleton] at heR; rw [heR]; rfl
          | obj o => simp only [List.mem_singleton] at heR; rw [heR]; rfl
      · rw [if_neg hk] at heR
        simp at heR
    rw [hmsg]
    refine ⟨fun tn => ?_, by decide, by decide⟩
    intro hc
    have := congrArg firstChar hc
    rw [firstChar_append2 _ _ _ (by decide)] at this
    exact absurd this (by decide)
  · -- pagination fold segment: empty, since each field is absent or a bool
    rcases List.mem_append.mp heP with heP1 | heP2
    · cases hg : dictGet d "startIndex" with
      | none =>
        rw [dictGet_none_hasKey hg] at heP1
        simp at heP1
      | some j =>
        obtain ⟨b, rfl⟩ := hSI j hg
        rw [dictGet_some_hasKey hg, hg] at heP1
        simp [pyIsInt] at heP1
    · cases hg : dictGet d "itemsPerPage" with
      | none =>
        rw [dictGet_none_hasKey hg] at heP2
        simp at heP2
      | some j =>
        obtain ⟨b, rfl⟩ := hIP j hg
        rw [dictGet_some_hasKey hg, hg] at heP2
        simp [pyIsInt] at heP2

/-- C10 witness: the boolean-valued list body passes strict validation with no
errors, and on a 404 status the one reported error is not an integer-type
complaint, both read off the claim at the concrete body. -/
theorem claim_C10_witness :
    validate_list_response true (some listBoolDoc) 200 none = (true, []) ∧
    ∀ e ∈ (validate_list_response true (some listBoolDoc) 404 none).2,
      (∀ tn, e.message ≠ ("totalResults must be an integer, got " ++ tn)
              ++ " (RFC 7644 §3.4.2)") ∧
      e.message ≠ "\x27startIndex\x27 must be an integer" ∧
      e.message ≠ "\x27itemsPerPage\x27 must be an integer" :=
  ⟨claim_C10.2.2 true,
   claim_C10.2.1 true listBoolDoc 404 none true rfl
     (fun _ hj => ⟨false, (Option.some.inj hj).symm⟩)
     (fun _ hj => ⟨true, (Option.some.inj hj).symm⟩)⟩

end ScimSanity
